import Mathlib

set_option maxRecDepth 8000

/-!
Verification development for the identifier-resolution and schema-consistency
subsystem of `libinsdb` (a catalog/metadata access layer for the InstrumentDB
hierarchical scientific-instrument database).

The Python sources are shallowly embedded:

* strings are `List Char` (`Str`), split/join/prefix operations are modelled
  char by char;
* Python `dict`s are association lists (`Dict`) with first-match lookup and
  replace-or-append assignment, which matches `d[k] = v` / `{**a, **b}`
  semantics;
* Python `set`s of UUIDs are lists with duplicate-free insertion; iteration
  order of a set is modelled as the list order (the source's iteration order
  is not contractually defined);
* `uuid.UUID` values are their 128-bit integer value, carried as `Nat`;
* exceptions are modelled with `Except PyErr`; a method that mutates state
  returns the (possibly unchanged) state next to its result, so that state
  mutated before a raise is reported faithfully.

Deserialization (JSON/YAML/gzip), the filesystem, dates and HTTP transport
are external collaborators and are abstracted at their interface: a schema
file is "a decoded nested mapping", the remote server is a function from a
request path to an optional decoded response.
-/

/-! ## Strings as character lists -/

abbrev Str := List Char

/-- Python `str.split(sep)` for a one-character separator: splitting `""`
gives `[""]`, separators at the ends produce empty pieces. -/
def splitCh (sep : Char) : Str → List Str
  | [] => [[]]
  | c :: rest =>
    if c = sep then [] :: splitCh sep rest
    else
      match splitCh sep rest with
      | [] => [[c]]
      | p :: ps => (c :: p) :: ps

/-- The non-empty pieces of a split on `/`; this is the
`[x for x in path.split("/") if x != ""]` idiom used throughout the sources. -/
def nonEmptySegs (s : Str) : List Str :=
  (splitCh '/' s).filter (fun p => p ≠ [])

/-- The raw (unfiltered) `s.split("/")[-1]` used by the `DbObject.query`
dispatcher and by `uuid_from_url`. -/
def lastRawSeg (s : Str) : Str :=
  (splitCh '/' s).getLastD []

/-- Python `str.removeprefix(p)`. -/
def removePfx (p s : Str) : Str :=
  if p.isPrefixOf s then s.drop p.length else s

/-- Python `str.startswith(p)`. -/
def startswith (p s : Str) : Bool :=
  p.isPrefixOf s

/-- Python `"/".join(parts)`. -/
def joinSlash (parts : List Str) : Str :=
  List.intercalate ['/'] parts

/-! ## CPython `int(s, 16)` and `uuid.UUID(s)` (ASCII fragment)

`uuid.UUID(hex=s)` (CPython `uuid.py`) performs:

    hex = hex.replace('urn:', '').replace('uuid:', '')
    hex = hex.strip('{}').replace('-', '')
    if len(hex) != 32: raise ValueError(...)
    int_value = int(hex, 16)        -- then 0 <= int_value < 2**128 is checked

`int(s, 16)` accepts optional surrounding ASCII whitespace, an optional sign,
an optional `0x`/`0X` prefix (itself optionally followed by one underscore),
and hexadecimal digits with single underscores between digits.  Non-ASCII
digit forms are not modelled. -/

def isHexDig (c : Char) : Bool :=
  ('0' ≤ c ∧ c ≤ '9') ∨ ('a' ≤ c ∧ c ≤ 'f') ∨ ('A' ≤ c ∧ c ≤ 'F')

def hexVal (c : Char) : Nat :=
  if '0' ≤ c ∧ c ≤ '9' then c.toNat - '0'.toNat
  else if 'a' ≤ c ∧ c ≤ 'f' then c.toNat - 'a'.toNat + 10
  else c.toNat - 'A'.toNat + 10

/-- Digits of an underscored hex literal after its first digit:
`digit (('_')? digit)*`. -/
def hexTail : Str → Nat → Option Nat
  | [], acc => some acc
  | '_' :: c :: rest, acc =>
    if isHexDig c then hexTail rest (16 * acc + hexVal c) else none
  | '_' :: [], _ => none
  | c :: rest, acc =>
    if isHexDig c then hexTail rest (16 * acc + hexVal c) else none

/-- An underscored hex digit run, e.g. `1f_3a`; leading or trailing
underscores and doubled underscores are rejected. -/
def hexRun (s : Str) : Option Nat :=
  match s with
  | [] => none
  | c :: rest => if isHexDig c then hexTail rest (hexVal c) else none

/-- The digit part of `int(s, 16)` after sign handling: an optional
`0x`/`0X` prefix (optionally followed by a single underscore), then digits. -/
def hexBody (s : Str) : Option Nat :=
  match s with
  | '0' :: x :: rest =>
    if x = 'x' ∨ x = 'X' then
      match rest with
      | '_' :: rest2 => hexRun rest2
      | _ => hexRun rest
    else hexRun s
  | _ => hexRun s

def isPySpace (c : Char) : Bool :=
  c = ' ' ∨ c = '\t' ∨ c = '\n' ∨ c = '\r' ∨ c = '\x0b' ∨ c = '\x0c'

def stripWS (s : Str) : Str :=
  (((s.dropWhile isPySpace).reverse.dropWhile isPySpace).reverse)

/-- CPython `int(s, 16)` on ASCII input. -/
def pyIntHex (s : Str) : Option Int :=
  match stripWS s with
  | '+' :: r => (hexBody r).map (fun n => (n : Int))
  | '-' :: r => (hexBody r).map (fun n => -(n : Int))
  | r => (hexBody r).map (fun n => (n : Int))

/-- Python `str.replace(pat, "")` for a non-empty pattern `p :: ps`:
remove every (left-to-right, non-overlapping) occurrence.  The fuel (one
unit per input character) only serves structural termination; the wrapper
supplies enough of it. -/
def removeAllF (p : Char) (ps : Str) : Nat → Str → Str
  | 0, s => s
  | _ + 1, [] => []
  | fuel + 1, c :: rest =>
    if (p :: ps).isPrefixOf (c :: rest) then
      removeAllF p ps fuel ((c :: rest).drop (ps.length + 1))
    else
      c :: removeAllF p ps fuel rest

def removeAll (p : Char) (ps : Str) (s : Str) : Str :=
  removeAllF p ps s.length s

def isBrace (c : Char) : Bool :=
  c = '{' ∨ c = '}'

/-- Python `str.strip('{}')`. -/
def stripBraces (s : Str) : Str :=
  ((s.dropWhile isBrace).reverse.dropWhile isBrace).reverse

/-- `uuid.UUID(s)`: returns the 128-bit integer value of the UUID, or `none`
when CPython would raise. -/
def pyUUID (s : Str) : Option Nat :=
  let h1 := removeAll 'u' ("rn:".data) s
  let h2 := removeAll 'u' ("uid:".data) h1
  let h3 := (stripBraces h2).filter (fun c => c ≠ '-')
  if h3.length = 32 then
    match pyIntHex h3 with
    | some v => if 0 ≤ v ∧ v < 2 ^ 128 then some v.toNat else none
    | none => none
  else none

/-! ## Hexadecimal rendering of UUIDs

`str(uuid)` renders 32 lowercase hex digits in 8-4-4-4-12 groups. -/

def hexChar (d : Nat) : Char :=
  if d < 10 then Char.ofNat (48 + d) else Char.ofNat (87 + d)

/-- Big-endian fixed-width hex rendering. -/
def natToHex : Nat → Nat → Str
  | 0, _ => []
  | w + 1, n => natToHex w (n / 16) ++ [hexChar (n % 16)]

/-- The 32 hex digits of a UUID (what `str(uuid).replace('-', '')` gives). -/
def uuidHex (n : Nat) : Str :=
  natToHex 32 n

/-- `str(uuid)`: the 8-4-4-4-12 hyphenated lowercase form. -/
def uuidStr (n : Nat) : Str :=
  (uuidHex n).take 8 ++ ['-'] ++ ((uuidHex n).drop 8).take 4 ++ ['-'] ++
    ((uuidHex n).drop 12).take 4 ++ ['-'] ++ ((uuidHex n).drop 16).take 4 ++
    ['-'] ++ (uuidHex n).drop 20

/-! ## Python dictionaries and sets -/

/-- A Python `dict` as an association list in insertion order. -/
abbrev Dict (κ ν : Type) : Type := List (κ × ν)

def Dict.entries {κ ν : Type} (d : Dict κ ν) : List (κ × ν) := d

def dlookup {κ ν : Type} [DecidableEq κ] (d : Dict κ ν) (k : κ) : Option ν :=
  match d with
  | [] => none
  | (k0, v0) :: rest => if k0 = k then some v0 else dlookup rest k

/-- `d[k] = v`: replace the value at the first occurrence of `k`, or append. -/
def dset {κ ν : Type} [DecidableEq κ] (d : Dict κ ν) (k : κ) (v : ν) : Dict κ ν :=
  match d with
  | [] => [(k, v)]
  | (k0, v0) :: rest => if k0 = k then (k0, v) :: rest else (k0, v0) :: dset rest k v

/-- Update the value stored at key `k` with `f`; `none` models the `KeyError`
raised when `k` is absent. -/
def dmodify {κ ν : Type} [DecidableEq κ] (d : Dict κ ν) (k : κ) (f : ν → ν) :
    Option (Dict κ ν) :=
  match d with
  | [] => none
  | (k0, v0) :: rest =>
    if k0 = k then some ((k0, f v0) :: rest)
    else (dmodify rest k f).map (fun r => (k0, v0) :: r)

/-- `{**a, **b}`: all of `a`, then every entry of `b` assigned over it. -/
def dmerge {κ ν : Type} [DecidableEq κ] (a b : Dict κ ν) : Dict κ ν :=
  b.foldl (fun acc kv => dset acc kv.1 kv.2) a

def NodupKeys {κ ν : Type} (d : Dict κ ν) : Prop :=
  (d.map Prod.fst).Nodup

instance {κ ν : Type} [DecidableEq κ] (d : Dict κ ν) : Decidable (NodupKeys d) :=
  inferInstanceAs (Decidable ((d.map Prod.fst).Nodup))

/-- Python `set.add` on a set modelled as a duplicate-free list. -/
def sadd {α : Type} [DecidableEq α] (l : List α) (x : α) : List α :=
  if x ∈ l then l else l ++ [x]

/-! ## Exceptions -/

deriving instance DecidableEq for Except

inductive PyErr : Type where
  | valueError (msg : Str)
  | keyError (msg : Str)
  | indexError
  | assertionError
  | formatError (msg : Str)
  | connectionError (msg : Str)
deriving DecidableEq

/-! ## The object model (`objects.py`)

`upload_date` / `rel_date` carry the raw date string: date parsing is
delegated to the external `dateutil` collaborator and out of scope.
`metadata` is an opaque payload (`Option Unit`): its contents are never
inspected by the subsystem.  Filesystem paths are strings. -/

structure FormatSpecification where
  uuid : Nat
  document_ref : Str
  title : Str
  local_doc_file_path : Option Str
  doc_mime_type : Str
  file_mime_type : Str
deriving DecidableEq

structure Entity where
  uuid : Nat
  name : Str
  full_path : Option Str
  parent : Option Nat
  quantities : List Nat
deriving DecidableEq

structure Quantity where
  uuid : Nat
  name : Str
  format_spec : Option Nat
  entity : Nat
  data_files : List Nat
deriving DecidableEq

structure DataFile where
  uuid : Nat
  name : Str
  upload_date : Str
  metadata : Option Unit
  data_file_local_path : Option Str
  data_file_download_url : Option Str
  quantity : Nat
  spec_version : Str
  dependencies : List Nat
  plot_file_local_path : Option Str
  plot_mime_type : Str
  comment : Str
  release_tags : List Str
deriving DecidableEq

structure Release where
  tag : Str
  rel_date : Str
  comment : Str
  data_files : List Nat
deriving DecidableEq

/-- Items added to `DbObject._tracked_data_files`: `local.py` adds `UUID`
objects, but `dbobject.py`'s string branch adds the identifier string
itself, so the set is heterogeneous. -/
inductive PyVal : Type where
  | uuidV (n : Nat)
  | strV (s : Str)
deriving DecidableEq

/-! ## Raw schema documents

The decoded JSON/YAML mapping, before `parse_schema` turns it into typed
records.  Required keys are plain fields, optional keys are `Option`
(a missing required key would raise `KeyError` during parsing; such
documents are outside the scope of the claims).  `nonempty` records the
Python truthiness of the decoded top-level mapping, used by the
`if not schema` check in `read_schema`. -/

structure RawFormatSpec where
  uuid : Str
  doc_file_name : Option Str
  document_ref : Option Str
  title : Option Str
  doc_mime_type : Option Str
  file_mime_type : Option Str

structure RawEntity where
  name : Str
  uuid : Str
  children : List RawEntity

structure RawQuantity where
  uuid : Str
  name : Option Str
  format_spec : Option Str
  entity : Str

structure RawDataFile where
  uuid : Str
  name : Option Str
  upload_date : Str
  metadata : Option Unit
  file_name : Option Str
  plot_file : Option Str
  quantity : Str
  spec_version : Option Str
  dependencies : Option (List Str)
  plot_mime_type : Option Str
  comment : Option Str

structure RawRelease where
  tag : Str
  release_date : Str
  comments : Option Str
  data_files : Option (List Str)

structure SchemaDoc where
  nonempty : Bool
  format_specifications : List RawFormatSpec
  entities : List RawEntity
  quantities : List RawQuantity
  data_files : List RawDataFile
  releases : List RawRelease

/-- `UUID(s)` as an `Except`: CPython raises `ValueError` on a bad string. -/
def pyUUIDE (s : Str) : Except PyErr Nat :=
  match pyUUID s with
  | some v => .ok v
  | none => .error (.valueError (("badly formed hexadecimal UUID string").data))

/-- Parse a list of UUID strings and collect them into a Python `set`
(`set([UUID(x) for x in l])`): duplicates collapse. -/
def pyUUIDSet (l : List Str) : Except PyErr (List Nat) :=
  match l with
  | [] => .ok []
  | s :: rest =>
    match pyUUID s, pyUUIDSet rest with
    | some v, .ok vs => .ok (sadd vs v)
    | none, _ => .error (.valueError (("badly formed hexadecimal UUID string").data))
    | _, .error e => .error e

/-! ## `local.py`: parsing helpers -/

/-- `_parse_format_spec` (`local.py`). -/
def parseFormatSpec (o : RawFormatSpec) : Except PyErr FormatSpecification :=
  match pyUUID o.uuid with
  | none => .error (.valueError (("badly formed hexadecimal UUID string").data))
  | some u =>
    .ok { uuid := u
          document_ref := o.document_ref.getD []
          title := o.title.getD []
          local_doc_file_path := o.doc_file_name
          doc_mime_type := o.doc_mime_type.getD []
          file_mime_type := o.file_mime_type.getD [] }

/-- `_parse_quantity` (`local.py`). -/
def parseQuantity (o : RawQuantity) : Except PyErr Quantity :=
  match (match o.format_spec with
         | none => Except.ok (none : Option Nat)
         | some s => (pyUUIDE s).map some) with
  | .error e => .error e
  | .ok fs =>
    match pyUUID o.uuid, pyUUID o.entity with
    | some u, some ent =>
      .ok { uuid := u, name := o.name.getD [], format_spec := fs,
            entity := ent, data_files := [] }
    | _, _ => .error (.valueError (("badly formed hexadecimal UUID string").data))

/-- `parse_data_file` (`local.py`): `data_file_local_path` is
`storage_path / file_name`; `release_tags` starts empty and is filled by
`_fill_release_tags` later. -/
def parseDataFile (storage_path : Str) (o : RawDataFile) : Except PyErr DataFile :=
  match pyUUIDSet (o.dependencies.getD []) with
  | .error e => .error e
  | .ok deps =>
    match pyUUID o.uuid, pyUUID o.quantity with
    | some u, some q =>
      .ok { uuid := u
            name := o.name.getD []
            upload_date := o.upload_date
            metadata := o.metadata
            data_file_local_path := o.file_name.map (fun f => storage_path ++ '/' :: f)
            data_file_download_url := none
            quantity := q
            spec_version := o.spec_version.getD []
            dependencies := deps
            plot_file_local_path := o.plot_file
            plot_mime_type := o.plot_mime_type.getD []
            comment := o.comment.getD []
            release_tags := [] }
    | _, _ => .error (.valueError (("badly formed hexadecimal UUID string").data))

/-- `_parse_release` (`local.py`). -/
def parseRelease (o : RawRelease) : Except PyErr Release :=
  match pyUUIDSet (o.data_files.getD []) with
  | .error e => .error e
  | .ok dfs =>
    .ok { tag := o.tag, rel_date := o.release_date,
          comment := o.comments.getD [], data_files := dfs }

/-- The `ValueError` message raised by `_parse_data_file_path`. -/
def malformedMsg (path : Str) : Str :=
  ("Malformed path to data file: \"").data ++ path ++ ("\"").data

/-- `_parse_data_file_path` (`local.py`): split on `/`, discard empty
pieces, fail when fewer than 3 remain, otherwise return
`(parts[0], "/" + "/".join(parts[1:-1]), parts[-1])`. -/
def parseDataFilePath (path : Str) : Except PyErr (Str × Str × Str) :=
  let parts := nonEmptySegs path
  if parts.length < 3 then
    .error (.valueError (malformedMsg path))
  else
    .ok (parts.headD [], '/' :: joinSlash ((parts.drop 1).dropLast), parts.getLastD [])

/-! ## `LocalInsDb` (`local.py`)

The snapshot's class wiring is inconsistent (`local.LocalInsDb` inherits an
`InstrumentDatabase` whose initializer takes mandatory arguments and which
lacks `add_uuid_to_tracked_list`); we model the state its methods actually
use: the seven index maps plus the `DbObject` tracked set that
`query_data_file` mutates through `add_uuid_to_tracked_list`. -/

structure LocalInsDb where
  storage_path : Str
  format_specs : Dict Nat FormatSpecification
  entities : Dict Nat Entity
  quantities : Dict Nat Quantity
  data_files : Dict Nat DataFile
  releases : Dict Str Release
  path_to_entity : Dict Str Nat
  path_to_quantity : Dict Str Nat
  tracked : List PyVal
deriving DecidableEq

/-- `add_uuid_to_tracked_list` (`dbobject.py`). -/
def addTracked (db : LocalInsDb) (v : PyVal) : LocalInsDb :=
  { db with tracked := sadd db.tracked v }

/-- An identifier argument: either a `uuid.UUID` object or a string. -/
inductive Ident : Type where
  | u (n : Nat)
  | s (str : Str)
deriving DecidableEq

/-- Python `f"{p}"` on an `Optional[str]`: `str(None)` is `"None"`. -/
def optPathStr (p : Option Str) : Str :=
  match p with
  | some s => s
  | none => ("None").data

/-- `LocalInsDb.quantity_path`: `f"{entity.full_path}/{quantity.name}"`.
The `assert quantity.entity` in the source always passes: a `UUID` object
is truthy. -/
def quantityPath (quantities : Dict Nat Quantity) (entities : Dict Nat Entity)
    (u : Nat) : Except PyErr Str :=
  match dlookup quantities u with
  | none => .error (.keyError (uuidStr u))
  | some q =>
    match dlookup entities q.entity with
    | none => .error (.keyError (uuidStr q.entity))
    | some e => .ok (optPathStr e.full_path ++ '/' :: q.name)

/-! ### The `parse_schema` pipeline, step by step -/

/-- Step 1: `self.format_specs[spec.uuid] = spec` over the raw list. -/
def buildFormatSpecs (d : Dict Nat FormatSpecification) :
    List RawFormatSpec → Except PyErr (Dict Nat FormatSpecification)
  | [] => .ok d
  | o :: rest =>
    match parseFormatSpec o with
    | .error e => .error e
    | .ok fs => buildFormatSpecs (dset d fs.uuid fs) rest

mutual
def rawEntitySize : RawEntity → Nat
  | ⟨_, _, cs⟩ => 1 + rawForestSize cs
def rawForestSize : List RawEntity → Nat
  | [] => 0
  | e :: rest => 1 + rawEntitySize e + rawForestSize rest
end

/-- Step 2: `_walk_entity_tree_and_parse`: depth-first walk assigning
`full_path = f"{base_path}/{name}"` and the parent's UUID, inserting each
node before walking its children.  The fuel (a node count of the forest)
only serves structural termination; the wrapper supplies enough of it. -/
def walkEntityTreeF : Nat → Dict Nat Entity → List RawEntity → Str →
    Option Nat → Except PyErr (Dict Nat Entity)
  | 0, d, _, _, _ => .ok d
  | _ + 1, d, [], _, _ => .ok d
  | fuel + 1, d, o :: rest, base, parent =>
    match pyUUID o.uuid with
    | none => .error (.valueError (("badly formed hexadecimal UUID string").data))
    | some u =>
      let e : Entity :=
        { uuid := u, name := o.name, full_path := some (base ++ '/' :: o.name),
          parent := parent, quantities := [] }
      let d1 := dset d u e
      match (if o.children.isEmpty then .ok d1
             else walkEntityTreeF fuel d1 o.children (base ++ '/' :: o.name) (some u)) with
      | .error er => .error er
      | .ok d2 => walkEntityTreeF fuel d2 rest base parent

def walkEntityTree (d : Dict Nat Entity) (objs : List RawEntity) (base : Str)
    (parent : Option Nat) : Except PyErr (Dict Nat Entity) :=
  walkEntityTreeF (rawForestSize objs) d objs base parent

/-- Step 3: `self.quantities[q.uuid] = q` over the raw list. -/
def buildQuantities (d : Dict Nat Quantity) :
    List RawQuantity → Except PyErr (Dict Nat Quantity)
  | [] => .ok d
  | o :: rest =>
    match parseQuantity o with
    | .error e => .error e
    | .ok q => buildQuantities (dset d q.uuid q) rest

/-- Step 4: `self.data_files[df.uuid] = df` over the raw list. -/
def buildDataFiles (storage_path : Str) (d : Dict Nat DataFile) :
    List RawDataFile → Except PyErr (Dict Nat DataFile)
  | [] => .ok d
  | o :: rest =>
    match parseDataFile storage_path o with
    | .error e => .error e
    | .ok df => buildDataFiles storage_path (dset d df.uuid df) rest

/-- Step 5: `self.releases[rel.tag] = rel` over the raw list. -/
def buildReleases (d : Dict Str Release) :
    List RawRelease → Except PyErr (Dict Str Release)
  | [] => .ok d
  | o :: rest =>
    match parseRelease o with
    | .error e => .error e
    | .ok r => buildReleases (dset d r.tag r) rest

/-- Step 6: `self.path_to_entity[entity.full_path] = uuid` over the items of
the entity map; the source asserts `full_path is not None` first. -/
def buildPathToEntity (acc : Dict Str Nat) :
    List (Nat × Entity) → Except PyErr (Dict Str Nat)
  | [] => .ok acc
  | (u, e) :: rest =>
    match e.full_path with
    | none => .error .assertionError
    | some p => buildPathToEntity (dset acc p u) rest

/-- Step 7: the `path_to_quantity` dict comprehension keyed by
`quantity_path`. -/
def buildPathToQuantity (quantities : Dict Nat Quantity)
    (entities : Dict Nat Entity) (acc : Dict Str Nat) :
    List (Nat × Quantity) → Except PyErr (Dict Str Nat)
  | [] => .ok acc
  | (u, _) :: rest =>
    match quantityPath quantities entities u with
    | .error e => .error e
    | .ok p => buildPathToQuantity quantities entities (dset acc p u) rest

/-- Step 8: back-fill `entity.quantities` from each quantity's `entity`
field.  The `if cur_quantity.entity:` guard always passes: a `UUID` object
is truthy. -/
def backfillEntityQuantities (ents : Dict Nat Entity) :
    List (Nat × Quantity) → Except PyErr (Dict Nat Entity)
  | [] => .ok ents
  | (u, q) :: rest =>
    match dmodify ents q.entity (fun e => { e with quantities := sadd e.quantities u }) with
    | none => .error (.keyError (uuidStr q.entity))
    | some ents2 => backfillEntityQuantities ents2 rest

/-- Step 9: back-fill `quantity.data_files` from each data file's
`quantity` field. -/
def backfillQuantityDataFiles (qs : Dict Nat Quantity) :
    List (Nat × DataFile) → Except PyErr (Dict Nat Quantity)
  | [] => .ok qs
  | (u, df) :: rest =>
    match dmodify qs df.quantity (fun q => { q with data_files := sadd q.data_files u }) with
    | none => .error (.keyError (uuidStr df.quantity))
    | some qs2 => backfillQuantityDataFiles qs2 rest

/-- The inner loop of `_fill_release_tags` for one release. -/
def fillOneRelease (tag : Str) (d : Dict Nat DataFile) :
    List Nat → Except PyErr (Dict Nat DataFile)
  | [] => .ok d
  | u :: rest =>
    match dmodify d u (fun df => { df with release_tags := sadd df.release_tags tag }) with
    | none => .error (.keyError (uuidStr u))
    | some d2 => fillOneRelease tag d2 rest

/-- Step 10: `_fill_release_tags` over the items of the release map. -/
def fillReleaseTags (d : Dict Nat DataFile) :
    List (Str × Release) → Except PyErr (Dict Nat DataFile)
  | [] => .ok d
  | (tag, rel) :: rest =>
    match fillOneRelease tag d rel.data_files with
    | .error e => .error e
    | .ok d2 => fillReleaseTags d2 rest

/-- `LocalInsDb.parse_schema`: the full pipeline in source order. -/
def parseSchema (db : LocalInsDb) (schema : SchemaDoc) : Except PyErr LocalInsDb := do
  let fs ← buildFormatSpecs [] schema.format_specifications
  let ents ← walkEntityTree [] schema.entities [] none
  let qs ← buildQuantities [] schema.quantities
  let dfs ← buildDataFiles db.storage_path [] schema.data_files
  let rels ← buildReleases [] schema.releases
  let p2e ← buildPathToEntity [] ents.entries
  let p2q ← buildPathToQuantity qs ents [] qs.entries
  let ents2 ← backfillEntityQuantities ents qs.entries
  let qs2 ← backfillQuantityDataFiles qs dfs.entries
  let dfs2 ← fillReleaseTags dfs rels.entries
  .ok { db with format_specs := fs, entities := ents2, quantities := qs2,
                data_files := dfs2, releases := rels,
                path_to_entity := p2e, path_to_quantity := p2q }

/-! ### Schema file discovery (`check_consistency` / `read_schema`) -/

/-- A storage directory: decoded schema documents by file name.  The four
parsers differ only in deserialization (JSON/YAML, plain/gzip), which is
external; each is modelled as a lookup of its file name, a missing file
raising `FileNotFoundError`. -/
abbrev Storage : Type := Dict Str SchemaDoc

/-- `_DB_FLATFILE_SCHEMA_FILE_NAME + ext` for the fixed extension order of
`_DB_FLATFILE_SCHEMA_FILE_EXTENSIONS`. -/
def schemaFileNames : List Str :=
  [("schema.json").data, ("schema.json.gz").data,
   ("schema.yaml").data, ("schema.yaml.gz").data]

/-- The `InstrumentDbFormatError` message; `Path.absolute()` is not
modelled, the storage path stands for itself. -/
def schemaNotFoundMsg (storage_path : Str) : Str :=
  ("no valid schema file found in \"").data ++ storage_path ++ ("\"").data

/-- `LocalInsDb.check_consistency`: at least one of the four schema file
names must exist. -/
def checkConsistency (storage_path : Str) (files : Storage) : Except PyErr Unit :=
  if schemaFileNames.any (fun n => (dlookup files n).isSome) then .ok ()
  else .error (.formatError (schemaNotFoundMsg storage_path))

/-- The `schema` variable at the end of `read_schema`'s loop: each found
file overwrites the previous one, so the last existing name wins. -/
def lastFoundSchema (files : Storage) : Option SchemaDoc :=
  schemaFileNames.foldl
    (fun acc n => match dlookup files n with
                  | some doc => some doc
                  | none => acc)
    none

/-- `LocalInsDb.read_schema`: loop over the four candidates (without
stopping at the first hit), then `if not schema: raise`, then
`parse_schema`. -/
def readSchema (db : LocalInsDb) (files : Storage) : Except PyErr LocalInsDb :=
  match lastFoundSchema files with
  | none => .error (.formatError (schemaNotFoundMsg db.storage_path))
  | some doc =>
    if doc.nonempty then parseSchema db doc
    else .error (.formatError (schemaNotFoundMsg db.storage_path))

/-- `LocalInsDb.__init__`: empty maps, `check_consistency`, `read_schema`. -/
def initLocalInsDb (storage_path : Str) (files : Storage) : Except PyErr LocalInsDb :=
  let db0 : LocalInsDb :=
    { storage_path := storage_path, format_specs := [], entities := [],
      quantities := [], data_files := [], releases := [],
      path_to_entity := [], path_to_quantity := [], tracked := [] }
  match checkConsistency storage_path files with
  | .error e => .error e
  | .ok _ => readSchema db0 files

/-! ### `LocalInsDb` queries -/

/-- `LocalInsDb.query_entity`. -/
def queryEntity (db : LocalInsDb) (identifier : Ident) : Except PyErr Entity :=
  match identifier with
  | .u n =>
    match dlookup db.entities n with
    | some e => .ok e
    | none => .error (.keyError (uuidStr n))
  | .s p =>
    match dlookup db.path_to_entity p with
    | none => .error (.keyError p)
    | some eu =>
      match dlookup db.entities eu with
      | some e => .ok e
      | none => .error (.keyError (uuidStr eu))

/-- `LocalInsDb.query_release`. -/
def queryRelease (db : LocalInsDb) (tag : Str) : Except PyErr Release :=
  match dlookup db.releases tag with
  | some r => .ok r
  | none => .error (.keyError tag)

/-- The scan over an entity's quantities in `query_data_file`: first record
whose `name` matches, re-fetched through its own `uuid` field as in the
source (`quantity = self.quantities[cur_quantity.uuid]`). -/
def findQuantityByName (qdict : Dict Nat Quantity) (l : List Nat) (qname : Str) :
    Except PyErr (Option Quantity) :=
  match l with
  | [] => .ok none
  | u :: rest =>
    match dlookup qdict u with
    | none => .error (.keyError (uuidStr u))
    | some q =>
      if q.name = qname then
        match dlookup qdict q.uuid with
        | none => .error (.keyError (uuidStr q.uuid))
        | some q2 => .ok (some q2)
      else findQuantityByName qdict rest qname

/-- The scan over a quantity's data files for the first UUID also present in
the release's member set. -/
def firstMemIn (l : List Nat) (rset : List Nat) : Option Nat :=
  l.find? (fun u => rset.contains u)

/-- The `KeyError` message for a path whose entity lacks the named quantity. -/
def wrongPathEntityMsg (id : Str) (full_path : Option Str) (qname : Str) : Str :=
  ("wrong path: \"").data ++ id ++ ("\" points to entity \"").data ++
    optPathStr full_path ++
    ("\", which does not have a quantity named \"").data ++ qname ++ ("\"").data

/-- The `KeyError` message for a quantity with no data file in the release;
`str(x)[0:6]` is the first six hex digits of each UUID. -/
def noFilesInReleaseMsg (id : Str) (qname : Str) (relname : Str)
    (dfs : List Nat) : Str :=
  ("wrong path: \"").data ++ id ++ ("\" points to quantity \"").data ++ qname ++
    ("\", which does not have data files belonging to release \"").data ++
    relname ++ ("\" (data files are: ").data ++
    List.intercalate ((", ").data) (dfs.map (fun u => (uuidStr u).take 6)) ++
    (")").data

/-- The literal `"/releases/"`. -/
def relSlashPfx : Str := ("/releases/").data

/-- `LocalInsDb.query_data_file` (`local.py`).  In the UUID and UUID-string
branches the source calls `add_uuid_to_tracked_list` *before* the
`self.data_files[uuid]` lookup.  The `print(f"DEBUG: …")` statement only
writes to stdout and is not modelled. -/
def queryDataFile (db : LocalInsDb) (identifier : Ident) (track : Bool) :
    Except PyErr DataFile × LocalInsDb :=
  match identifier with
  | .u n =>
    let db1 := if track then addTracked db (.uuidV n) else db
    match dlookup db.data_files n with
    | some df => (.ok df, db1)
    | none => (.error (.keyError (uuidStr n)), db1)
  | .s s =>
    match pyUUID s with
    | some n =>
      let db1 := if track then addTracked db (.uuidV n) else db
      match dlookup db.data_files n with
      | some df => (.ok df, db1)
      | none => (.error (.keyError (uuidStr n)), db1)
    | none =>
      let stripped := removePfx relSlashPfx s
      match parseDataFilePath stripped with
      | .error e => (.error e, db)
      | .ok (relname, entityPath, qname) =>
        match dlookup db.releases relname with
        | none => (.error (.keyError relname), db)
        | some rel =>
          match dlookup db.path_to_entity entityPath with
          | none => (.error (.keyError entityPath), db)
          | some eu =>
            match dlookup db.entities eu with
            | none => (.error (.keyError (uuidStr eu)), db)
            | some ent =>
              match findQuantityByName db.quantities ent.quantities qname with
              | .error e => (.error e, db)
              | .ok none =>
                (.error (.keyError (wrongPathEntityMsg s ent.full_path qname)), db)
              | .ok (some q) =>
                match firstMemIn q.data_files rel.data_files with
                | some du =>
                  let db1 := if track then addTracked db (.uuidV du) else db
                  match dlookup db.data_files du with
                  | some df => (.ok df, db1)
                  | none => (.error (.keyError (uuidStr du)), db1)
                | none =>
                  (.error (.keyError
                    (noFilesInReleaseMsg s qname relname q.data_files)), db)

/-- `LocalInsDb.merge`: `{**self.m, **other.m}` for all seven maps. -/
def mergeLocalInsDb (a b : LocalInsDb) : LocalInsDb :=
  { a with
    format_specs := dmerge a.format_specs b.format_specs
    entities := dmerge a.entities b.entities
    quantities := dmerge a.quantities b.quantities
    data_files := dmerge a.data_files b.data_files
    releases := dmerge a.releases b.releases
    path_to_entity := dmerge a.path_to_entity b.path_to_entity
    path_to_quantity := dmerge a.path_to_quantity b.path_to_quantity }

/-! ## `dbobject.py`: `LocalDatabase` and the `DbObject.query` dispatcher

`LocalDatabase` carries the same state fields as `LocalInsDb` (its path
field is named `path`), so the same state record is reused.  Its
`query_data_file` differs from `local.py`'s: no `"/releases/"` stripping
(done by the dispatcher instead), and in the UUID-string branch
`add_uuid_to_tracked_list(uuid=identifier)` adds the *string* identifier. -/

abbrev LocalDatabase := LocalInsDb

/-- `LocalDatabase.query_entity` (`dbobject.py`): plain UUID lookup. -/
def ldbQueryEntity (db : LocalDatabase) (n : Nat) : Except PyErr Entity :=
  match dlookup db.entities n with
  | some e => .ok e
  | none => .error (.keyError (uuidStr n))

/-- `LocalDatabase.query_quantity` (`dbobject.py`). -/
def ldbQueryQuantity (db : LocalDatabase) (n : Nat) : Except PyErr Quantity :=
  match dlookup db.quantities n with
  | some q => .ok q
  | none => .error (.keyError (uuidStr n))

/-- `LocalDatabase.query_format_spec` (`dbobject.py`). -/
def ldbQueryFormatSpec (db : LocalDatabase) (n : Nat) :
    Except PyErr FormatSpecification :=
  match dlookup db.format_specs n with
  | some f => .ok f
  | none => .error (.keyError (uuidStr n))

/-- `LocalDatabase.query_data_file` (`dbobject.py`): tracking happens
before the `self.data_files[uuid]` lookup, and the UUID-string branch
tracks the raw identifier string. -/
def ldbQueryDataFile (db : LocalDatabase) (identifier : Ident) (track : Bool) :
    Except PyErr DataFile × LocalDatabase :=
  match identifier with
  | .u n =>
    let db1 := if track then addTracked db (.uuidV n) else db
    match dlookup db.data_files n with
    | some df => (.ok df, db1)
    | none => (.error (.keyError (uuidStr n)), db1)
  | .s s =>
    match pyUUID s with
    | some n =>
      let db1 := if track then addTracked db (.strV s) else db
      match dlookup db.data_files n with
      | some df => (.ok df, db1)
      | none => (.error (.keyError (uuidStr n)), db1)
    | none =>
      match parseDataFilePath s with
      | .error e => (.error e, db)
      | .ok (relname, entityPath, qname) =>
        match dlookup db.releases relname with
        | none => (.error (.keyError relname), db)
        | some rel =>
          match dlookup db.path_to_entity entityPath with
          | none => (.error (.keyError entityPath), db)
          | some eu =>
            match dlookup db.entities eu with
            | none => (.error (.keyError (uuidStr eu)), db)
            | some ent =>
              match findQuantityByName db.quantities ent.quantities qname with
              | .error e => (.error e, db)
              | .ok none =>
                (.error (.keyError (wrongPathEntityMsg s ent.full_path qname)), db)
              | .ok (some q) =>
                match firstMemIn q.data_files rel.data_files with
                | some du =>
                  let db1 := if track then addTracked db (.uuidV du) else db
                  match dlookup db.data_files du with
                  | some df => (.ok df, db1)
                  | none => (.error (.keyError (uuidStr du)), db1)
                | none =>
                  (.error (.keyError
                    (noFilesInReleaseMsg s qname relname q.data_files)), db)

/-- The result of the polymorphic `query`: one of the four record kinds. -/
inductive DbResult : Type where
  | df (d : DataFile)
  | qty (q : Quantity)
  | ent (e : Entity)
  | fspec (f : FormatSpecification)
deriving DecidableEq

/-- `DbObject.query` (`dbobject.py`) for a `LocalDatabase` backend.
Dispatch order: raw UUID ⇒ data file; the four type-URL forms (the UUID is
`identifier.split("/")[-1]`); a `"/releases"` leading part is dropped
(`identifier[len("/releases/"):]`, i.e. 10 characters); anything else is a
release-scoped path.  Only the `/data_files` lambda receives `track`; the
other `query_data_file` calls use the default `track=True`. -/
def dbQuery (db : LocalDatabase) (identifier : Ident) (track : Bool) :
    Except PyErr DbResult × LocalDatabase :=
  match identifier with
  | .u n =>
    let (r, db1) := ldbQueryDataFile db (.u n) true
    (r.map .df, db1)
  | .s s =>
    if startswith (("/data_files").data) s then
      match pyUUID (lastRawSeg s) with
      | none =>
        (.error (.valueError (("badly formed hexadecimal UUID string").data)), db)
      | some n =>
        let (r, db1) := ldbQueryDataFile db (.u n) track
        (r.map .df, db1)
    else if startswith (("/quantities").data) s then
      match pyUUID (lastRawSeg s) with
      | none =>
        (.error (.valueError (("badly formed hexadecimal UUID string").data)), db)
      | some n => ((ldbQueryQuantity db n).map .qty, db)
    else if startswith (("/entities").data) s then
      match pyUUID (lastRawSeg s) with
      | none =>
        (.error (.valueError (("badly formed hexadecimal UUID string").data)), db)
      | some n => ((ldbQueryEntity db n).map .ent, db)
    else if startswith (("/format_specs").data) s then
      match pyUUID (lastRawSeg s) with
      | none =>
        (.error (.valueError (("badly formed hexadecimal UUID string").data)), db)
      | some n => ((ldbQueryFormatSpec db n).map .fspec, db)
    else
      let s2 := if startswith (("/releases").data) s then s.drop 10 else s
      let (r, db1) := ldbQueryDataFile db (.s s2) true
      (r.map .df, db1)

/-! ## `instrumentdb.py`: the `InstrumentDatabase` wrapper

Per its constructor, the wrapper holds a `dbobject` backend (here the
`LocalDatabase` variant) and a `queried_objects` set of `(type, uuid)`
pairs. -/

/-- `type(result)` for the tracked-set entries. -/
inductive ObjKind : Type where
  | entK
  | qtyK
  | dfK
  | fsK
deriving DecidableEq

def kindOf : DbResult → ObjKind
  | .df _ => .dfK
  | .qty _ => .qtyK
  | .ent _ => .entK
  | .fspec _ => .fsK

def uuidOfResult : DbResult → Nat
  | .df d => d.uuid
  | .qty q => q.uuid
  | .ent e => e.uuid
  | .fspec f => f.uuid

structure InstrumentDatabase where
  dbobject : LocalDatabase
  queried_objects : List (ObjKind × Nat)
deriving DecidableEq

/-- `InstrumentDatabase.query`: delegates to `self.dbobject.query(identifier)`
(without forwarding `track`, so the backend uses its `track=True` default),
then `if result and track: queried_objects.add((type(result), result.uuid))`;
a result object is always truthy. -/
def idbQuery (st : InstrumentDatabase) (identifier : Ident) (track : Bool) :
    Except PyErr DbResult × InstrumentDatabase :=
  let (r, be) := dbQuery st.dbobject identifier true
  match r with
  | .ok res =>
    let q2 := if track then sadd st.queried_objects (kindOf res, uuidOfResult res)
              else st.queried_objects
    (.ok res, { dbobject := be, queried_objects := q2 })
  | .error e => (.error e, { dbobject := be, queried_objects := st.queried_objects })

/-- `get_queried_entities`: `[x[1] for x in queried_objects if x[0] == Entity]`. -/
def getQueriedEntities (st : InstrumentDatabase) : List Nat :=
  (st.queried_objects.filter (fun x => x.1 = .entK)).map Prod.snd

/-- `get_queried_quantities`. -/
def getQueriedQuantities (st : InstrumentDatabase) : List Nat :=
  (st.queried_objects.filter (fun x => x.1 = .qtyK)).map Prod.snd

/-- `get_queried_data_files`. -/
def getQueriedDataFiles (st : InstrumentDatabase) : List Nat :=
  (st.queried_objects.filter (fun x => x.1 = .dfK)).map Prod.snd

/-! ## `remote.py`: `RemoteInsDb.query_data_file`

The HTTP transport is an external collaborator: the server is a function
from a request path (what `urljoin(server_address, path)` addresses for a
root-relative path) to an optional decoded JSON body; `none` models a
non-2xx response, which `_validate_response` turns into an
`InstrumentDbConnectionError`. -/

/-- The decoded JSON body of a data-file response; cross-references are
URLs whose final path segment is the UUID. -/
structure DataFileJson : Type where
  uuid : Str
  name : Str
  upload_date : Str
  metadata : Option Unit
  download_link : Str
  quantity : Str
  spec_version : Str
  dependencies : List Str
  plot_mime_type : Str
  comment : Str
  release_tags : List Str
deriving DecidableEq

abbrev Server := Str → Option DataFileJson

structure RemoteInsDb where
  server : Server
  tracked : List PyVal

/-- `extract_last_part_from_url` (`remote.py`): last non-empty `/`-piece;
an URL with no non-empty piece raises `IndexError`. -/
def extractLastPart (url : Str) : Except PyErr Str :=
  match (nonEmptySegs url).getLast? with
  | some p => .ok p
  | none => .error .indexError

/-- `uuid_from_url` (`remote.py`). -/
def uuidFromUrl (url : Str) : Except PyErr Nat :=
  match extractLastPart url with
  | .error e => .error e
  | .ok p => pyUUIDE p

def mapExcept {α β : Type} (f : α → Except PyErr β) : List α → Except PyErr (List β)
  | [] => .ok []
  | x :: rest =>
    match f x, mapExcept f rest with
    | .ok y, .ok ys => .ok (y :: ys)
    | .error e, _ => .error e
    | _, .error e => .error e

/-- `RemoteInsDb._create_data_file_from_response` (`remote.py`):
`upload_date` is stored as the raw string from the payload. -/
def createDataFileFromResponse (j : DataFileJson) : Except PyErr DataFile := do
  let u ← uuidFromUrl j.uuid
  let q ← uuidFromUrl j.quantity
  let deps ← mapExcept uuidFromUrl j.dependencies
  let tags ← mapExcept extractLastPart j.release_tags
  .ok { uuid := u, name := j.name, upload_date := j.upload_date,
        metadata := j.metadata, data_file_local_path := none,
        data_file_download_url := some j.download_link, quantity := q,
        spec_version := j.spec_version,
        dependencies := deps.foldl sadd [],
        plot_file_local_path := none, plot_mime_type := j.plot_mime_type,
        comment := j.comment,
        release_tags := tags.foldl sadd [] }

/-- `RemoteInsDb._query_data_file_from_uuid`: fetch
`/api/data_files/{uuid}/`; on a 2xx response the UUID is tracked *before*
the body is decoded into a `DataFile`. -/
def remoteFromUuid (r : RemoteInsDb) (n : Nat) (track : Bool) :
    Except PyErr DataFile × RemoteInsDb :=
  match r.server (("/api/data_files/").data ++ uuidStr n ++ ['/']) with
  | none => (.error (.connectionError (("Unable to log in").data)), r)
  | some j =>
    let r1 := if track then { r with tracked := sadd r.tracked (.uuidV n) } else r
    match createDataFileFromResponse j with
    | .error e => (.error e, r1)
    | .ok df => (.ok df, r1)

/-- `RemoteInsDb.query_data_file` (`remote.py`): UUIDs and UUID strings go
through `/api/data_files/`; any other string is sent to the
`"/releases/"`-prefixed path (the prefix is prepended when missing). -/
def remoteQueryDataFile (r : RemoteInsDb) (identifier : Ident) (track : Bool) :
    Except PyErr DataFile × RemoteInsDb :=
  match identifier with
  | .u n => remoteFromUuid r n track
  | .s s =>
    match pyUUID s with
    | some n => remoteFromUuid r n track
    | none =>
      let fullId := if startswith relSlashPfx s then s else relSlashPfx ++ s
      match r.server fullId with
      | none => (.error (.connectionError (("Unable to log in").data)), r)
      | some j =>
        match createDataFileFromResponse j with
        | .error e => (.error e, r)
        | .ok df =>
          let r1 := if track then { r with tracked := sadd r.tracked (.uuidV df.uuid) }
                    else r
          (.ok df, r1)

/-! ## Spec-modelled remote server (for the cross-backend contract)

The InstrumentDB server itself is not part of this repository.  For the
cross-backend refinement claim it is modelled from the spec (§4.2, §4.5,
§6): it answers `/releases/<tag>/<entity path>/<quantity>` requests by
performing the release-scoped path resolution algorithm (steps a–f) over an
equivalent catalog, and serializes the resolved data file with URL
cross-references whose final path segment is the UUID. -/

/-- Modelled from the spec (§4.2 step e): among the entity's child
quantities, the first whose `name` equals the quantity-name segment. -/
def specFindQuantity (qd : Dict Nat Quantity) (l : List Nat) (qname : Str) :
    Option Quantity :=
  match l with
  | [] => none
  | u :: rest =>
    match dlookup qd u with
    | some q => if q.name = qname then some q else specFindQuantity qd rest qname
    | none => specFindQuantity qd rest qname

/-- Modelled from the spec (§4.2 steps a–f): release-scoped path
resolution over a catalog: split and drop empty segments, fail below 3
segments, look up the release by tag, the entity by its reassembled full
path, the quantity by name equality among the entity's children, then the
first of the quantity's data files that belongs to the release's member
set. -/
def specResolveReleasePath (db : LocalInsDb) (path : Str) : Option DataFile :=
  let parts := nonEmptySegs path
  if parts.length < 3 then none
  else
    match dlookup db.releases (parts.headD []) with
    | none => none
    | some rel =>
      match dlookup db.path_to_entity ('/' :: joinSlash ((parts.drop 1).dropLast)) with
      | none => none
      | some eu =>
        match dlookup db.entities eu with
        | none => none
        | some ent =>
          match specFindQuantity db.quantities ent.quantities (parts.getLastD []) with
          | none => none
          | some q =>
            match q.data_files.find? (fun ud => rel.data_files.contains ud) with
            | none => none
            | some ud => dlookup db.data_files ud

/-- Modelled from the spec (§6): the JSON body the server sends for a data
file; cross-references are full URLs whose final path segment is the UUID
(hyphenated form), release tags appear as release URLs. -/
def jsonOfDataFile (df : DataFile) : DataFileJson :=
  { uuid := ("http://localhost/api/data_files/").data ++ uuidStr df.uuid ++ ['/']
    name := df.name
    upload_date := df.upload_date
    metadata := df.metadata
    download_link := ("http://localhost/download/").data ++ uuidStr df.uuid
    quantity := ("http://localhost/api/quantities/").data ++ uuidStr df.quantity ++ ['/']
    spec_version := df.spec_version
    dependencies := df.dependencies.map
      (fun u => ("http://localhost/api/data_files/").data ++ uuidStr u ++ ['/'])
    plot_mime_type := df.plot_mime_type
    comment := df.comment
    release_tags := df.release_tags.map
      (fun t => ("http://localhost/api/releases/").data ++ t ++ ['/']) }

/-- Modelled from the spec: a remote server answering from the catalog
`db`: a 200 response with the serialized data file for a resolvable
`/releases/…` path, a non-2xx response otherwise. -/
def modelServer (db : LocalInsDb) : Server := fun path =>
  if startswith relSlashPfx path then
    (specResolveReleasePath db (path.drop 10)).map jsonOfDataFile
  else none

/-! ## Concrete catalogs used by the witnesses -/

def emptyLocalInsDb : LocalInsDb :=
  { storage_path := ("/db").data, format_specs := [], entities := [],
    quantities := [], data_files := [], releases := [],
    path_to_entity := [], path_to_quantity := [], tracked := [] }

/-- UUID of the `LFI` root entity (witness value). -/
def uLFI : Nat := 0x11111111111111111111111111111111

/-- UUID of the `frequency_030_ghz` entity (`b3386894-…` in the test data). -/
def uF030 : Nat := 0xb338689440a34664aaf6f78d944943e2

/-- UUID of the `27M` entity (`8734a013-…`). -/
def u27M : Nat := 0x8734a0134184412cab5a963388beae34

/-- UUID of the `bandpass` quantity (`6d1d72ac-…`). -/
def uBandpass : Nat := 0x6d1d72acad224e949ff44c3fa8d47c53

/-- UUID of the bandpass data file in release `planck2018` (`ed8ef738-…`). -/
def uBandpassFile : Nat := 0xed8ef738ef1e474bb867646c74f89694

def planckBandpassFile : DataFile :=
  { uuid := uBandpassFile, name := ("bandpass.csv").data,
    upload_date := ("2018-01-01T00:00:00").data, metadata := none,
    data_file_local_path := some (("/db/data_files/bandpass.csv").data),
    data_file_download_url := none, quantity := uBandpass,
    spec_version := ("1.0").data, dependencies := [],
    plot_file_local_path := none, plot_mime_type := [], comment := [],
    release_tags := [("planck2018").data] }

/-- The concrete-scenario catalog of spec §8: entity
`/LFI/frequency_030_ghz/27M` owning quantity `bandpass`, whose data file
belongs to release `planck2018`. -/
def planckDb : LocalInsDb :=
  { storage_path := ("/db").data
    format_specs := []
    entities :=
      [(uLFI, { uuid := uLFI, name := ("LFI").data,
                full_path := some (("/LFI").data), parent := none,
                quantities := [] }),
       (uF030, { uuid := uF030, name := ("frequency_030_ghz").data,
                 full_path := some (("/LFI/frequency_030_ghz").data),
                 parent := some uLFI, quantities := [] }),
       (u27M, { uuid := u27M, name := ("27M").data,
                full_path := some (("/LFI/frequency_030_ghz/27M").data),
                parent := some uF030, quantities := [uBandpass] })]
    quantities :=
      [(uBandpass, { uuid := uBandpass, name := ("bandpass").data,
                     format_spec := none, entity := u27M,
                     data_files := [uBandpassFile] })]
    data_files := [(uBandpassFile, planckBandpassFile)]
    releases :=
      [(("planck2018").data,
        { tag := ("planck2018").data, rel_date := ("2018-07-01").data,
          comment := [], data_files := [uBandpassFile] })]
    path_to_entity :=
      [((("/LFI").data), uLFI),
       ((("/LFI/frequency_030_ghz").data), uF030),
       ((("/LFI/frequency_030_ghz/27M").data), u27M)]
    path_to_quantity := [((("/LFI/frequency_030_ghz/27M/bandpass").data), uBandpass)]
    tracked := [] }

/-- The concrete release-scoped path of spec §8. -/
def planckPath : Str := ("/releases/planck2018/LFI/frequency_030_ghz/27M/bandpass").data

/-- A schema document (decoded mapping) that exercises the whole parsing
pipeline: one entity, one quantity, one data file, one release. -/
def witnessDoc : SchemaDoc :=
  { nonempty := true
    format_specifications := []
    entities :=
      [{ name := ("det").data,
         uuid := ("00000000-0000-0000-0000-000000000001").data, children := [] }]
    quantities :=
      [{ uuid := ("00000000-0000-0000-0000-000000000002").data,
         name := some (("q").data), format_spec := none,
         entity := ("00000000-0000-0000-0000-000000000001").data }]
    data_files :=
      [{ uuid := ("00000000-0000-0000-0000-000000000003").data,
         name := some (("f.bin").data),
         upload_date := ("2024-01-01T00:00:00").data, metadata := none,
         file_name := none, plot_file := none,
         quantity := ("00000000-0000-0000-0000-000000000002").data,
         spec_version := none, dependencies := none, plot_mime_type := none,
         comment := none }]
    releases :=
      [{ tag := ("r1").data, release_date := ("2024-02-01T00:00:00").data,
         comments := none,
         data_files := some [("00000000-0000-0000-0000-000000000003").data] }] }

/-- A second schema document, with no releases, distinguishable from
`witnessDoc`. -/
def witnessDocB : SchemaDoc :=
  { nonempty := true, format_specifications := [], entities := [],
    quantities := [], data_files := [], releases := [] }

/-- A storage directory holding distinct documents under both
`schema.json` and `schema.yaml`. -/
def twoSchemaStorage : Storage :=
  [((("schema.json").data), witnessDoc), ((("schema.yaml").data), witnessDocB)]

/-- First-present schema document in a given name order (used to state the
preference-order behaviour of `read_schema`). -/
def firstPresent (files : Storage) : List Str → Option SchemaDoc
  | [] => none
  | n :: rest =>
    match dlookup files n with
    | some d => some d
    | none => firstPresent files rest

/-- The state `LocalInsDb.__init__` builds before reading the schema. -/
def freshLocalInsDb (storage_path : Str) : LocalInsDb :=
  { storage_path := storage_path, format_specs := [], entities := [],
    quantities := [], data_files := [], releases := [],
    path_to_entity := [], path_to_quantity := [], tracked := [] }

/-- The index produced by parsing `witnessDoc` into a fresh database
(extracted from the pipeline so concrete statements can name it). -/
def witnessParsedDb : LocalInsDb :=
  (parseSchema (freshLocalInsDb (("/db").data)) witnessDoc).toOption.getD
    (freshLocalInsDb (("/db").data))

/-! # Lemmas and theorems -/

theorem dlookup_dset {κ ν : Type} [DecidableEq κ] (d : Dict κ ν) (k k' : κ) (v : ν) :
    dlookup (dset d k v) k' = if k = k' then some v else dlookup d k' := by
  induction d with
  | nil => simp [dset, dlookup]
  | cons kv rest ih =>
    obtain ⟨k0, v0⟩ := kv
    by_cases h0 : k0 = k
    · subst h0
      simp only [dset, if_pos rfl, dlookup]
      by_cases h1 : k0 = k'
      · simp [h1]
      · simp [h1, dlookup, (by intro h; exact h1 h : ¬ k0 = k')]
    · simp only [dset, if_neg h0, dlookup]
      by_cases h1 : k0 = k'
      · subst h1
        have : ¬ k = k0 := fun h => h0 h.symm
        simp [this]
      · simp [h1, ih]

theorem dlookup_mem {κ ν : Type} [DecidableEq κ] {d : Dict κ ν} {k : κ} {v : ν}
    (h : dlookup d k = some v) : (k, v) ∈ d := by
  induction d with
  | nil => simp [dlookup] at h
  | cons kv rest ih =>
    obtain ⟨k0, v0⟩ := kv
    by_cases h0 : k0 = k
    · subst h0
      simp [dlookup] at h
      subst h
      exact List.mem_cons_self _ _
    · simp only [dlookup, if_neg h0] at h
      exact List.mem_cons_of_mem _ (ih h)

theorem mem_dlookup {κ ν : Type} [DecidableEq κ] {d : Dict κ ν} {k : κ} {v : ν}
    (hnd : NodupKeys d) (h : (k, v) ∈ d) : dlookup d k = some v := by
  induction d with
  | nil => simp at h
  | cons kv rest ih =>
    obtain ⟨k0, v0⟩ := kv
    simp only [NodupKeys, List.map_cons, List.nodup_cons] at hnd
    rcases List.mem_cons.mp h with heq | hmem
    · simp only [Prod.mk.injEq] at heq
      simp [dlookup, heq.1, heq.2]
    · have hne : k0 ≠ k := by
        intro hk
        subst hk
        exact hnd.1 (List.mem_map.mpr ⟨(k0, v), hmem, rfl⟩)
      simp only [dlookup, if_neg hne]
      exact ih hnd.2 hmem

theorem dmerge_cons {κ ν : Type} [DecidableEq κ] (a : Dict κ ν) (kv : κ × ν)
    (bs : List (κ × ν)) : dmerge a (kv :: bs) = dmerge (dset a kv.1 kv.2) bs := rfl

theorem dlookup_dmerge {κ ν : Type} [DecidableEq κ] (a b : Dict κ ν)
    (hb : NodupKeys b) (k : κ) :
    dlookup (dmerge a b) k =
      match dlookup b k with
      | some v => some v
      | none => dlookup a k := by
  induction b generalizing a with
  | nil => simp [dmerge, dlookup]
  | cons kv bs ih =>
    obtain ⟨k0, v0⟩ := kv
    simp only [NodupKeys, List.map_cons, List.nodup_cons] at hb
    rw [dmerge_cons]
    rw [ih _ hb.2]
    by_cases h0 : k0 = k
    · subst h0
      have hnb : dlookup bs k0 = none := by
        cases hlb : dlookup bs k0 with
        | none => rfl
        | some v =>
          exact absurd (List.mem_map.mpr ⟨(k0, v), dlookup_mem hlb, rfl⟩) hb.1
      simp [dlookup, hnb, dlookup_dset]
    · simp [dlookup, h0, dlookup_dset]

/-- Claim C1-style membership characterization of `sadd`. -/
theorem mem_sadd {α : Type} [DecidableEq α] (l : List α) (x y : α) :
    y ∈ sadd l x ↔ y ∈ l ∨ y = x := by
  unfold sadd
  by_cases h : x ∈ l
  · simp only [if_pos h]
    constructor
    · exact Or.inl
    · rintro (hy | rfl)
      · exact hy
      · exact h
  · simp [if_neg h, List.mem_append]

theorem sadd_idem {α : Type} [DecidableEq α] (l : List α) (x : α) :
    sadd (sadd l x) x = sadd l x := by
  unfold sadd
  by_cases h : x ∈ l
  · simp [if_pos h]
  · simp [if_neg h, List.mem_append]

/-- claim C8: after `merge`, each of the seven maps answers every lookup
from the second index first and falls back to the first index. -/
theorem dlookup_dmerge_cases {κ ν : Type} [DecidableEq κ] (a b : Dict κ ν)
    (hb : NodupKeys b) (k : κ) :
    (dlookup b k = none → dlookup (dmerge a b) k = dlookup a k) ∧
    (∀ v, dlookup b k = some v → dlookup (dmerge a b) k = some v) := by
  constructor
  · intro h
    rw [dlookup_dmerge a b hb k, h]
  · intro v h
    rw [dlookup_dmerge a b hb k, h]

/-- Two small indexes sharing the entity UUID 1, used by the merge witness. -/
def mergeDbA : LocalInsDb :=
  { freshLocalInsDb (("/a").data) with
    entities := [(1, { uuid := 1, name := ("a").data,
                       full_path := some (("/a").data), parent := none,
                       quantities := [] }),
                 (2, { uuid := 2, name := ("keep").data,
                       full_path := some (("/keep").data), parent := none,
                       quantities := [] })] }

def mergeDbB : LocalInsDb :=
  { freshLocalInsDb (("/b").data) with
    entities := [(1, { uuid := 1, name := ("b").data,
                       full_path := some (("/b").data), parent := none,
                       quantities := [] }),
                 (3, { uuid := 3, name := ("new").data,
                       full_path := some (("/new").data), parent := none,
                       quantities := [] })] }

/-- Claim C8: after `A.merge(B)`, each of the seven maps of `A` answers a
key present in `B` with `B`'s record (last-writer-wins) and any other key
with `A`'s old record. -/
theorem claim_C8_merge (a b : LocalInsDb)
    (h1 : NodupKeys b.format_specs) (h2 : NodupKeys b.entities)
    (h3 : NodupKeys b.quantities) (h4 : NodupKeys b.data_files)
    (h5 : NodupKeys b.releases) (h6 : NodupKeys b.path_to_entity)
    (h7 : NodupKeys b.path_to_quantity) :
    (∀ k, (dlookup b.format_specs k = none →
            dlookup (mergeLocalInsDb a b).format_specs k = dlookup a.format_specs k) ∧
          (∀ v, dlookup b.format_specs k = some v →
            dlookup (mergeLocalInsDb a b).format_specs k = some v)) ∧
    (∀ k, (dlookup b.entities k = none →
            dlookup (mergeLocalInsDb a b).entities k = dlookup a.entities k) ∧
          (∀ v, dlookup b.entities k = some v →
            dlookup (mergeLocalInsDb a b).entities k = some v)) ∧
    (∀ k, (dlookup b.quantities k = none →
            dlookup (mergeLocalInsDb a b).quantities k = dlookup a.quantities k) ∧
          (∀ v, dlookup b.quantities k = some v →
            dlookup (mergeLocalInsDb a b).quantities k = some v)) ∧
    (∀ k, (dlookup b.data_files k = none →
            dlookup (mergeLocalInsDb a b).data_files k = dlookup a.data_files k) ∧
          (∀ v, dlookup b.data_files k = some v →
            dlookup (mergeLocalInsDb a b).data_files k = some v)) ∧
    (∀ k, (dlookup b.releases k = none →
            dlookup (mergeLocalInsDb a b).releases k = dlookup a.releases k) ∧
          (∀ v, dlookup b.releases k = some v →
            dlookup (mergeLocalInsDb a b).releases k = some v)) ∧
    (∀ k, (dlookup b.path_to_entity k = none →
            dlookup (mergeLocalInsDb a b).path_to_entity k = dlookup a.path_to_entity k) ∧
          (∀ v, dlookup b.path_to_entity k = some v →
            dlookup (mergeLocalInsDb a b).path_to_entity k = some v)) ∧
    (∀ k, (dlookup b.path_to_quantity k = none →
            dlookup (mergeLocalInsDb a b).path_to_quantity k = dlookup a.path_to_quantity k) ∧
          (∀ v, dlookup b.path_to_quantity k = some v →
            dlookup (mergeLocalInsDb a b).path_to_quantity k = some v)) := by
  refine ⟨fun k => dlookup_dmerge_cases _ _ h1 k,
          fun k => dlookup_dmerge_cases _ _ h2 k,
          fun k => dlookup_dmerge_cases _ _ h3 k,
          fun k => dlookup_dmerge_cases _ _ h4 k,
          fun k => dlookup_dmerge_cases _ _ h5 k,
          fun k => dlookup_dmerge_cases _ _ h6 k,
          fun k => dlookup_dmerge_cases _ _ h7 k⟩

/-- Witness for C8 on two concrete indexes that share entity UUID 1: the
merged index keeps `B`'s record for the shared UUID, `A`'s record for keys
only in `A`, and `B`'s for keys only in `B`. -/
theorem claim_C8_merge_witness :
    (NodupKeys mergeDbB.entities ∧
     dlookup (mergeLocalInsDb mergeDbA mergeDbB).entities 1 =
       dlookup mergeDbB.entities 1 ∧
     dlookup (mergeLocalInsDb mergeDbA mergeDbB).entities 2 =
       dlookup mergeDbA.entities 2 ∧
     dlookup (mergeLocalInsDb mergeDbA mergeDbB).entities 3 =
       dlookup mergeDbB.entities 3) ∧
    (∀ k, (dlookup mergeDbB.entities k = none →
            dlookup (mergeLocalInsDb mergeDbA mergeDbB).entities k =
              dlookup mergeDbA.entities k) ∧
          (∀ v, dlookup mergeDbB.entities k = some v →
            dlookup (mergeLocalInsDb mergeDbA mergeDbB).entities k = some v)) :=
  ⟨by decide,
   (claim_C8_merge mergeDbA mergeDbB (by decide) (by decide) (by decide)
      (by decide) (by decide) (by decide) (by decide)).2.1⟩

/-! ### Splitting lemmas -/

theorem splitCh_ne_nil (sep : Char) (s : Str) : splitCh sep s ≠ [] := by
  cases s with
  | nil => simp [splitCh]
  | cons c rest =>
    by_cases h : c = sep
    · simp [splitCh, h]
    · simp only [splitCh, if_neg h]
      cases hs : splitCh sep rest <;> simp

/-- Splitting distributes over a separator occurrence. -/
theorem splitCh_append_sep (sep : Char) (l r : Str) :
    splitCh sep (l ++ sep :: r) = splitCh sep l ++ splitCh sep r := by
  induction l with
  | nil => simp [splitCh]
  | cons c l ih =>
    by_cases h : c = sep
    · subst h
      simp [splitCh, ih]
    · simp only [List.cons_append, splitCh, if_neg h, List.append_eq]
      rw [ih]
      cases hl : splitCh sep l with
      | nil => exact absurd hl (splitCh_ne_nil sep l)
      | cons p ps => simp

theorem splitCh_no_sep (sep : Char) (s : Str) (h : ∀ c ∈ s, c ≠ sep) :
    splitCh sep s = [s] := by
  induction s with
  | nil => simp [splitCh]
  | cons c rest ih =>
    have hc : c ≠ sep := h c (List.mem_cons_self _ _)
    simp only [splitCh, if_neg hc]
    rw [ih (fun x hx => h x (List.mem_cons_of_mem _ hx))]

theorem nonEmptySegs_append_sep (l r : Str) :
    nonEmptySegs (l ++ '/' :: r) = nonEmptySegs l ++ nonEmptySegs r := by
  unfold nonEmptySegs
  rw [splitCh_append_sep, List.filter_append]

theorem nonEmptySegs_nil : nonEmptySegs [] = [] := by
  simp [nonEmptySegs, splitCh]

theorem nonEmptySegs_no_sep (s : Str) (h : ∀ c ∈ s, c ≠ '/') (hne : s ≠ []) :
    nonEmptySegs s = [s] := by
  unfold nonEmptySegs
  rw [splitCh_no_sep _ _ h]
  simp [hne]

/-- `"/releases/"` contributes exactly the segment `releases`. -/
theorem nonEmptySegs_relPfx (r : Str) :
    nonEmptySegs (relSlashPfx ++ r) = ("releases").data :: nonEmptySegs r := by
  have h1 : relSlashPfx ++ r = [] ++ '/' :: (("releases").data ++ '/' :: r) := rfl
  rw [h1, nonEmptySegs_append_sep, nonEmptySegs_nil, nonEmptySegs_append_sep]
  rw [nonEmptySegs_no_sep (("releases").data) (by decide) (by decide)]
  rfl

theorem isPrefixOf_eq_append {p s : Str} (h : p.isPrefixOf s = true) :
    s = p ++ s.drop p.length := by
  obtain ⟨t, ht⟩ := List.isPrefixOf_iff_prefix.mp h
  rw [← ht, List.drop_left]

/-- Claim C3: a non-UUID string with fewer than 3 non-empty segments makes
`query_data_file` fail with the malformed-path `ValueError` for every
backend state, leaving the state untouched: no release, entity, quantity,
data-file or tracked-set access can influence the outcome. -/
theorem claim_C3_malformed_path (db : LocalInsDb) (s : Str) (track : Bool)
    (hnot : pyUUID s = none) (hlen : (nonEmptySegs s).length < 3) :
    queryDataFile db (.s s) track =
      (.error (.valueError (malformedMsg (removePfx relSlashPfx s))), db) := by
  have hstr : (nonEmptySegs (removePfx relSlashPfx s)).length < 3 := by
    unfold removePfx
    by_cases hp : relSlashPfx.isPrefixOf s
    · simp only [if_pos hp]
      have hs : s = relSlashPfx ++ s.drop relSlashPfx.length :=
        isPrefixOf_eq_append hp
      have hlen2 := hlen
      rw [hs, nonEmptySegs_relPfx] at hlen2
      simp only [List.length_cons] at hlen2
      have hlen10 : relSlashPfx.length = 10 := rfl
      rw [hlen10] at hlen2 ⊢
      omega
    · simp only [if_neg hp]
      exact hlen
  unfold queryDataFile
  simp only [hnot]
  unfold parseDataFilePath
  simp only [if_pos hstr]

/-- Witness for C3 at the concrete malformed path `"/releases/x"`. -/
theorem claim_C3_malformed_path_witness :
    (pyUUID (("/releases/x").data) = none ∧
     (nonEmptySegs (("/releases/x").data)).length < 3) ∧
    queryDataFile planckDb (.s (("/releases/x").data)) true =
      (.error (.valueError
        (malformedMsg (removePfx relSlashPfx (("/releases/x").data)))), planckDb) :=
  ⟨⟨by decide, by decide⟩,
   claim_C3_malformed_path planckDb (("/releases/x").data) true
     (by decide) (by decide)⟩

theorem getLastD_append_singleton {α : Type} (xs : List α) (u : α) (d : α) :
    (xs ++ [u]).getLastD d = u := by
  induction xs generalizing d with
  | nil => rfl
  | cons x rest ih =>
    rw [List.cons_append, List.getLastD_cons]
    exact ih x

theorem lastRawSeg_slash_append (A u : Str) (hu : ∀ c ∈ u, c ≠ '/') :
    lastRawSeg (A ++ '/' :: u) = u := by
  unfold lastRawSeg
  rw [splitCh_append_sep, splitCh_no_sep '/' u hu]
  exact getLastD_append_singleton _ _ _


set_option maxHeartbeats 4000000

/-- The `DbObject.query` dispatcher treats two string identifiers alike when
they agree on the four type-prefix tests, at least one of which holds, and
on the substring after the last `/`. -/
theorem dbQuery_prefix_eq (db : LocalDatabase) (track : Bool) (s1 s2 : Str)
    (h1 : startswith (("/data_files").data) s1 = startswith (("/data_files").data) s2)
    (h2 : startswith (("/quantities").data) s1 = startswith (("/quantities").data) s2)
    (h3 : startswith (("/entities").data) s1 = startswith (("/entities").data) s2)
    (h4 : startswith (("/format_specs").data) s1 = startswith (("/format_specs").data) s2)
    (h5 : (startswith (("/data_files").data) s1 || startswith (("/quantities").data) s1 ||
           startswith (("/entities").data) s1 || startswith (("/format_specs").data) s1) = true)
    (hlast : lastRawSeg s1 = lastRawSeg s2) :
    dbQuery db (.s s1) track = dbQuery db (.s s2) track := by
  cases hd1 : startswith (("/data_files").data) s1 with
  | true =>
    have hd2 : startswith (("/data_files").data) s2 = true := h1 ▸ hd1
    simp only [dbQuery, hd1, hd2, if_true, hlast]
  | false =>
    have hd2 : startswith (("/data_files").data) s2 = false := h1 ▸ hd1
    cases hq1 : startswith (("/quantities").data) s1 with
    | true =>
      have hq2 : startswith (("/quantities").data) s2 = true := h2 ▸ hq1
      simp only [dbQuery, hd1, hd2, hq1, hq2, Bool.false_eq_true, if_false,
        if_true, hlast]
    | false =>
      have hq2 : startswith (("/quantities").data) s2 = false := h2 ▸ hq1
      cases he1 : startswith (("/entities").data) s1 with
      | true =>
        have he2 : startswith (("/entities").data) s2 = true := h3 ▸ he1
        simp only [dbQuery, hd1, hd2, hq1, hq2, he1, he2, Bool.false_eq_true,
          if_false, if_true, hlast]
      | false =>
        have he2 : startswith (("/entities").data) s2 = false := h3 ▸ he1
        cases hf1 : startswith (("/format_specs").data) s1 with
        | true =>
          have hf2 : startswith (("/format_specs").data) s2 = true := h4 ▸ hf1
          simp only [dbQuery, hd1, hd2, hq1, hq2, he1, he2, hf1, hf2,
            Bool.false_eq_true, if_false, if_true, hlast]
        | false =>
          rw [hd1, hq1, he1, hf1] at h5
          simp at h5

/-- Claim C10: for each of the four type prefixes, `DbObject.query` parses
only the substring after the last `/` as the UUID, so inserting a non-empty
filler between the prefix and the UUID does not change the result. -/
theorem claim_C10_dispatcher_last_segment (db : LocalDatabase) (track : Bool)
    (f u : Str) (hf : f ≠ []) (hu : (pyUUID u).isSome)
    (hslash : ∀ c ∈ u, c ≠ '/') :
    dbQuery db (.s ((("/data_files/").data) ++ (f ++ '/' :: u))) track =
      dbQuery db (.s ((("/data_files/").data) ++ u)) track ∧
    dbQuery db (.s ((("/quantities/").data) ++ (f ++ '/' :: u))) track =
      dbQuery db (.s ((("/quantities/").data) ++ u)) track ∧
    dbQuery db (.s ((("/entities/").data) ++ (f ++ '/' :: u))) track =
      dbQuery db (.s ((("/entities/").data) ++ u)) track ∧
    dbQuery db (.s ((("/format_specs/").data) ++ (f ++ '/' :: u))) track =
      dbQuery db (.s ((("/format_specs/").data) ++ u)) track := by
  have lseg : ∀ pre : Str,
      lastRawSeg ((pre ++ ['/']) ++ (f ++ '/' :: u)) = u ∧
      lastRawSeg ((pre ++ ['/']) ++ u) = u := by
    intro pre
    constructor
    · rw [show (pre ++ ['/']) ++ (f ++ '/' :: u) =
            ((pre ++ ['/']) ++ f) ++ '/' :: u from by simp]
      exact lastRawSeg_slash_append _ u hslash
    · rw [show (pre ++ ['/']) ++ u = pre ++ '/' :: u from by simp]
      exact lastRawSeg_slash_append _ u hslash
  refine ⟨?_, ?_, ?_, ?_⟩
  · have hl := lseg (("/data_files").data)
    exact dbQuery_prefix_eq db track _ _ rfl rfl rfl rfl rfl
      (hl.1.trans hl.2.symm)
  · have hl := lseg (("/quantities").data)
    exact dbQuery_prefix_eq db track _ _ rfl rfl rfl rfl rfl
      (hl.1.trans hl.2.symm)
  · have hl := lseg (("/entities").data)
    exact dbQuery_prefix_eq db track _ _ rfl rfl rfl rfl rfl
      (hl.1.trans hl.2.symm)
  · have hl := lseg (("/format_specs").data)
    exact dbQuery_prefix_eq db track _ _ rfl rfl rfl rfl rfl
      (hl.1.trans hl.2.symm)

/-- Witness for C10: inserting the filler `x` before the `27M` entity UUID
does not change the dispatcher's answer. -/
theorem claim_C10_dispatcher_last_segment_witness :
    ((("x").data ≠ ([] : Str)) ∧
     (pyUUID (("8734a013-4184-412c-ab5a-963388beae34").data)).isSome ∧
     (∀ c ∈ (("8734a013-4184-412c-ab5a-963388beae34").data), c ≠ '/') ∧
     dbQuery planckDb
       (.s ((("/entities/").data) ++
         ((("x").data) ++ '/' :: (("8734a013-4184-412c-ab5a-963388beae34").data))))
       true =
       (.ok (.ent { uuid := u27M, name := ("27M").data,
                    full_path := some (("/LFI/frequency_030_ghz/27M").data),
                    parent := some uF030, quantities := [uBandpass] }), planckDb)) ∧
    dbQuery planckDb
      (.s ((("/entities/").data) ++
        ((("x").data) ++ '/' :: (("8734a013-4184-412c-ab5a-963388beae34").data))))
      true =
      dbQuery planckDb
        (.s ((("/entities/").data) ++ (("8734a013-4184-412c-ab5a-963388beae34").data)))
        true :=
  ⟨⟨by decide, by decide, by decide, by decide⟩,
   (claim_C10_dispatcher_last_segment planckDb true (("x").data)
     (("8734a013-4184-412c-ab5a-963388beae34").data)
     (by decide) (by decide) (by decide)).2.2.1⟩


/-- Claim C4: a successful `InstrumentDatabase.query` with `track=False`
leaves the outputs of all three tracked-set accessors unchanged, while
`track=True` makes the accessor matching the resolved object's kind
contain its UUID. -/
theorem claim_C4_query_tracking (st : InstrumentDatabase) (identifier : Ident) :
    (∀ r st', idbQuery st identifier false = (.ok r, st') →
       getQueriedEntities st' = getQueriedEntities st ∧
       getQueriedQuantities st' = getQueriedQuantities st ∧
       getQueriedDataFiles st' = getQueriedDataFiles st) ∧
    (∀ r st', idbQuery st identifier true = (.ok r, st') →
       (∀ e, r = .ent e → e.uuid ∈ getQueriedEntities st') ∧
       (∀ q, r = .qty q → q.uuid ∈ getQueriedQuantities st') ∧
       (∀ d, r = .df d → d.uuid ∈ getQueriedDataFiles st')) := by
  constructor
  · intro r st' h
    unfold idbQuery at h
    rcases hq : dbQuery st.dbobject identifier true with ⟨res, be⟩
    rw [hq] at h
    cases res with
    | ok v =>
      simp only [Bool.false_eq_true, if_false] at h
      rw [Prod.mk.injEq] at h
      obtain ⟨h1, h2⟩ := h
      subst h2
      simp [getQueriedEntities, getQueriedQuantities, getQueriedDataFiles]
    | error e =>
      exact absurd (congrArg Prod.fst h) (by simp)
  · intro r st' h
    unfold idbQuery at h
    rcases hq : dbQuery st.dbobject identifier true with ⟨res, be⟩
    rw [hq] at h
    cases res with
    | ok v =>
      simp only [if_pos rfl] at h
      rw [Prod.mk.injEq] at h
      obtain ⟨h1, h2⟩ := h
      injection h1 with h1
      subst h1
      subst h2
      refine ⟨?_, ?_, ?_⟩
      · rintro e rfl
        have hm : (ObjKind.entK, e.uuid) ∈
            sadd st.queried_objects (ObjKind.entK, e.uuid) :=
          (mem_sadd _ _ _).mpr (Or.inr rfl)
        exact List.mem_map.mpr ⟨(ObjKind.entK, e.uuid),
          List.mem_filter.mpr ⟨hm, rfl⟩, rfl⟩
      · rintro q rfl
        have hm : (ObjKind.qtyK, q.uuid) ∈
            sadd st.queried_objects (ObjKind.qtyK, q.uuid) :=
          (mem_sadd _ _ _).mpr (Or.inr rfl)
        exact List.mem_map.mpr ⟨(ObjKind.qtyK, q.uuid),
          List.mem_filter.mpr ⟨hm, rfl⟩, rfl⟩
      · rintro d rfl
        have hm : (ObjKind.dfK, d.uuid) ∈
            sadd st.queried_objects (ObjKind.dfK, d.uuid) :=
          (mem_sadd _ _ _).mpr (Or.inr rfl)
        exact List.mem_map.mpr ⟨(ObjKind.dfK, d.uuid),
          List.mem_filter.mpr ⟨hm, rfl⟩, rfl⟩
    | error e =>
      exact absurd (congrArg Prod.fst h) (by simp)

/-- Witness for C4: querying the planck release path through the wrapper
with `track=False` leaves the data-file accessor output empty, while the
default `track=True` makes it contain the resolved UUID. -/
theorem claim_C4_query_tracking_witness :
    (idbQuery { dbobject := planckDb, queried_objects := [] } (.s planckPath) true).1 =
      .ok (.df planckBandpassFile) ∧
    uBandpassFile ∈ getQueriedDataFiles
      ((idbQuery { dbobject := planckDb, queried_objects := [] } (.s planckPath) true).2) ∧
    getQueriedDataFiles
      ((idbQuery { dbobject := planckDb, queried_objects := [] } (.s planckPath) false).2) = [] := by
  refine ⟨by decide, ?_, ?_⟩
  · have h2 : (idbQuery { dbobject := planckDb, queried_objects := [] }
        (.s planckPath) true).2 =
        { dbobject := addTracked planckDb (.uuidV uBandpassFile),
          queried_objects := [(ObjKind.dfK, uBandpassFile)] } := by decide
    rw [h2]
    exact ((claim_C4_query_tracking
        { dbobject := planckDb, queried_objects := [] } (.s planckPath)).2
        (.df planckBandpassFile)
        { dbobject := addTracked planckDb (.uuidV uBandpassFile),
          queried_objects := [(ObjKind.dfK, uBandpassFile)] }
        (by decide)).2.2 planckBandpassFile rfl
  · have h2 : (idbQuery { dbobject := planckDb, queried_objects := [] }
        (.s planckPath) false).2 =
        { dbobject := addTracked planckDb (.uuidV uBandpassFile),
          queried_objects := [] } := by decide
    rw [h2]
    have h3 := ((claim_C4_query_tracking
        { dbobject := planckDb, queried_objects := [] } (.s planckPath)).1
        (.df planckBandpassFile)
        { dbobject := addTracked planckDb (.uuidV uBandpassFile),
          queried_objects := [] }
        (by decide)).2.2
    rw [h3]
    decide

/-- The state returned by `LocalInsDb.query_data_file` is either unchanged
or extended by one tracked UUID (tracking happens before the final
lookup). -/
theorem queryDataFile_snd (db : LocalInsDb) (identifier : Ident) (track : Bool) :
    (queryDataFile db identifier track).2 = db ∨
    (track = true ∧ ∃ n,
      (queryDataFile db identifier track).2 = addTracked db (.uuidV n)) := by
  unfold queryDataFile
  rcases identifier with n | s
  · cases track with
    | false =>
      cases hd : dlookup db.data_files n <;> simp only [hd] <;> exact Or.inl rfl
    | true =>
      cases hd : dlookup db.data_files n <;> simp only [hd] <;>
        exact Or.inr ⟨by trivial, n, rfl⟩
  · rcases hu : pyUUID s with _ | n
    · simp only [hu]
      split
      · exact Or.inl rfl
      · split
        · exact Or.inl rfl
        · split
          · exact Or.inl rfl
          · split
            · exact Or.inl rfl
            · split
              · exact Or.inl rfl
              · exact Or.inl rfl
              · split
                · split
                  · cases track with
                    | false => exact Or.inl rfl
                    | true => exact Or.inr ⟨by trivial, _, rfl⟩
                  · cases track with
                    | false => exact Or.inl rfl
                    | true => exact Or.inr ⟨by trivial, _, rfl⟩
                · exact Or.inl rfl
    · simp only [hu]
      cases track with
      | false =>
        cases hd : dlookup db.data_files n <;> simp only [hd] <;> exact Or.inl rfl
      | true =>
        cases hd : dlookup db.data_files n <;> simp only [hd] <;>
          exact Or.inr ⟨by trivial, n, rfl⟩

/-- Same shape for the `dbobject.py` variant; its UUID-string branch may
track the identifier string instead of a UUID. -/
theorem ldbQueryDataFile_snd (db : LocalDatabase) (identifier : Ident) (track : Bool) :
    (ldbQueryDataFile db identifier track).2 = db ∨
    ∃ v, (ldbQueryDataFile db identifier track).2 = addTracked db v := by
  unfold ldbQueryDataFile
  rcases identifier with n | s
  · cases track with
    | false =>
      cases hd : dlookup db.data_files n <;> simp only [hd] <;> exact Or.inl rfl
    | true =>
      cases hd : dlookup db.data_files n <;> simp only [hd] <;> exact Or.inr ⟨_, rfl⟩
  · rcases hu : pyUUID s with _ | n
    · simp only [hu]
      split
      · exact Or.inl rfl
      · split
        · exact Or.inl rfl
        · split
          · exact Or.inl rfl
          · split
            · exact Or.inl rfl
            · split
              · exact Or.inl rfl
              · exact Or.inl rfl
              · split
                · split
                  · cases track with
                    | false => exact Or.inl rfl
                    | true => exact Or.inr ⟨_, rfl⟩
                  · cases track with
                    | false => exact Or.inl rfl
                    | true => exact Or.inr ⟨_, rfl⟩
                · exact Or.inl rfl
    · simp only [hu]
      cases track with
      | false =>
        cases hd : dlookup db.data_files n <;> simp only [hd] <;> exact Or.inl rfl
      | true =>
        cases hd : dlookup db.data_files n <;> simp only [hd] <;> exact Or.inr ⟨_, rfl⟩

/-- The dispatcher mutates state only through `query_data_file`. -/
theorem dbQuery_snd (db : LocalDatabase) (identifier : Ident) (track : Bool) :
    (dbQuery db identifier track).2 = db ∨
    ∃ v, (dbQuery db identifier track).2 = addTracked db v := by
  rcases identifier with n | s
  all_goals simp only [dbQuery]
  · rcases hq : ldbQueryDataFile db (.u n) true with ⟨r, db1⟩
    have hs := ldbQueryDataFile_snd db (.u n) true
    rw [hq] at hs
    simpa using hs
  · split
    · split
      · exact Or.inl rfl
      · rename_i n _
        rcases hq : ldbQueryDataFile db (.u n) track with ⟨r, db1⟩
        have hs := ldbQueryDataFile_snd db (.u n) track
        rw [hq] at hs
        simpa using hs
    · split
      · split <;> exact Or.inl rfl
      · split
        · split <;> exact Or.inl rfl
        · split
          · split <;> exact Or.inl rfl
          · generalize (if startswith (("/releases").data) s = true
                then s.drop 10 else s) = s2
            rcases hq : ldbQueryDataFile db (.s s2) true with ⟨r, db1⟩
            have hs := ldbQueryDataFile_snd db (.s s2) true
            rw [hq] at hs
            simpa using hs

/-- Claim C7 (amended): a call failing with a resolution error never
changes any of the seven index maps, and never changes the wrapper's
`queried_objects`; but the tracked set may have gained the UUID being
resolved when tracking was enabled, because the source tracks before the
final `data_files[uuid]` lookup. -/
theorem claim_C7_error_state :
    (∀ (db : LocalInsDb) (identifier : Ident) (track : Bool) e db',
       queryDataFile db identifier track = (.error e, db') →
       db'.format_specs = db.format_specs ∧ db'.entities = db.entities ∧
       db'.quantities = db.quantities ∧ db'.data_files = db.data_files ∧
       db'.releases = db.releases ∧ db'.path_to_entity = db.path_to_entity ∧
       db'.path_to_quantity = db.path_to_quantity ∧
       (db' = db ∨ (track = true ∧ ∃ n, db' = addTracked db (.uuidV n)))) ∧
    (∀ (st : InstrumentDatabase) (identifier : Ident) (track : Bool) e st',
       idbQuery st identifier track = (.error e, st') →
       st'.queried_objects = st.queried_objects ∧
       st'.dbobject.format_specs = st.dbobject.format_specs ∧
       st'.dbobject.entities = st.dbobject.entities ∧
       st'.dbobject.quantities = st.dbobject.quantities ∧
       st'.dbobject.data_files = st.dbobject.data_files ∧
       st'.dbobject.releases = st.dbobject.releases ∧
       st'.dbobject.path_to_entity = st.dbobject.path_to_entity ∧
       st'.dbobject.path_to_quantity = st.dbobject.path_to_quantity) := by
  constructor
  · intro db identifier track e db' h
    have hdb : (queryDataFile db identifier track).2 = db' := by rw [h]
    have hsnd := queryDataFile_snd db identifier track
    rw [hdb] at hsnd
    rcases hsnd with rfl | ⟨htr, n, rfl⟩
    · exact ⟨rfl, rfl, rfl, rfl, rfl, rfl, rfl, Or.inl rfl⟩
    · exact ⟨rfl, rfl, rfl, rfl, rfl, rfl, rfl, Or.inr ⟨htr, n, rfl⟩⟩
  · intro st identifier track e st' h
    unfold idbQuery at h
    rcases hq : dbQuery st.dbobject identifier true with ⟨res, be⟩
    rw [hq] at h
    cases res with
    | ok v => exact absurd (congrArg Prod.fst h) (by simp)
    | error e2 =>
      have hst : st' = { dbobject := be, queried_objects := st.queried_objects } := by
        have := congrArg Prod.snd h
        exact this.symm
      subst hst
      have hbe : (dbQuery st.dbobject identifier true).2 = be := by rw [hq]
      have hsnd := dbQuery_snd st.dbobject identifier true
      rw [hbe] at hsnd
      rcases hsnd with rfl | ⟨v, rfl⟩
      · exact ⟨rfl, rfl, rfl, rfl, rfl, rfl, rfl, rfl⟩
      · exact ⟨rfl, rfl, rfl, rfl, rfl, rfl, rfl, rfl⟩

/-- Counterexample to C7 as stated: resolving the absent UUID 0 against an
empty index with tracking on raises `KeyError` *after* adding the UUID to
the tracked set, so the backend state after the failed call differs from
the state before. -/
theorem claim_C7_error_state_counterexample :
    queryDataFile emptyLocalInsDb (.u 0) true =
      (.error (.keyError (uuidStr 0)), addTracked emptyLocalInsDb (.uuidV 0)) ∧
    addTracked emptyLocalInsDb (.uuidV 0) ≠ emptyLocalInsDb := by
  constructor
  · decide
  · decide

/-- Witness for the amended C7 at two concrete failing calls. -/
theorem claim_C7_error_state_witness :
    (queryDataFile emptyLocalInsDb (.u 0) true).2.data_files =
      emptyLocalInsDb.data_files ∧
    (idbQuery { dbobject := planckDb, queried_objects := [] }
       (.s (("/releases/x").data)) true).2.queried_objects = [] := by
  constructor
  · have h1 : queryDataFile emptyLocalInsDb (.u 0) true =
        (.error (.keyError (uuidStr 0)), addTracked emptyLocalInsDb (.uuidV 0)) := by
      decide
    rw [h1]
    exact (claim_C7_error_state.1 emptyLocalInsDb (.u 0) true
      (.keyError (uuidStr 0)) (addTracked emptyLocalInsDb (.uuidV 0)) h1).2.2.2.1
  · have h2 : idbQuery { dbobject := planckDb, queried_objects := [] }
        (.s (("/releases/x").data)) true =
        (.error (.valueError (malformedMsg (("x").data))),
         { dbobject := planckDb, queried_objects := [] }) := by
      decide
    have h3 := (claim_C7_error_state.2 { dbobject := planckDb, queried_objects := [] }
      (.s (("/releases/x").data)) true (.valueError (malformedMsg (("x").data)))
      { dbobject := planckDb, queried_objects := [] } h2).1
    rw [h2]

theorem buildPathToEntity_preserve (es : List (Nat × Entity)) (acc p2e : Dict Str Nat)
    (p : Str) (hb : buildPathToEntity acc es = .ok p2e)
    (hne : ∀ kv ∈ es, kv.2.full_path ≠ some p) :
    dlookup p2e p = dlookup acc p := by
  induction es generalizing acc with
  | nil =>
    simp only [buildPathToEntity] at hb
    cases hb
    rfl
  | cons kv rest ih =>
    obtain ⟨u0, e0⟩ := kv
    simp only [buildPathToEntity] at hb
    cases hfp : e0.full_path with
    | none => rw [hfp] at hb; cases hb
    | some p0 =>
      rw [hfp] at hb
      have hne0 : p0 ≠ p := by
        intro hp
        exact hne (u0, e0) (List.mem_cons_self _ _) (by rw [hfp, hp])
      rw [ih _ hb (fun kv hkv => hne kv (List.mem_cons_of_mem _ hkv))]
      rw [dlookup_dset]
      simp [hne0]

theorem buildPathToEntity_lookup (es : List (Nat × Entity)) (acc p2e : Dict Str Nat)
    (u : Nat) (e : Entity) (p : Str)
    (hb : buildPathToEntity acc es = .ok p2e)
    (hmem : (u, e) ∈ es) (hfp : e.full_path = some p)
    (huniq : (es.map (fun kv => kv.2.full_path)).Nodup) :
    dlookup p2e p = some u := by
  induction es generalizing acc with
  | nil => simp at hmem
  | cons kv rest ih =>
    obtain ⟨u0, e0⟩ := kv
    simp only [buildPathToEntity] at hb
    cases hfp0 : e0.full_path with
    | none => rw [hfp0] at hb; cases hb
    | some p0 =>
      rw [hfp0] at hb
      simp only [List.map_cons, List.nodup_cons] at huniq
      rcases List.mem_cons.mp hmem with heq | hmemr
      · simp only [Prod.mk.injEq] at heq
        obtain ⟨rfl, rfl⟩ := heq
        have hpp : p0 = p := by
          rw [hfp0] at hfp
          exact Option.some.inj hfp
        subst hpp
        have hrest : ∀ kv ∈ rest, kv.2.full_path ≠ some p0 := by
          intro kv hkv hcon
          exact huniq.1 (hfp0 ▸ List.mem_map.mpr ⟨kv, hkv, hcon⟩)
        rw [buildPathToEntity_preserve rest _ _ p0 hb hrest]
        rw [dlookup_dset]
        simp
      · exact ih _ hb hmemr huniq.2

/-- Claim C9: in a loaded local index whose entity full paths are unique,
resolving an entity by UUID and by its full path yields records with
identical UUIDs. -/
theorem claim_C9_entity_path_roundtrip (db : LocalInsDb) (u : Nat) (e : Entity)
    (p : Str)
    (hload : buildPathToEntity [] db.entities.entries = .ok db.path_to_entity)
    (hkeys : NodupKeys db.entities)
    (huniq : (db.entities.entries.map (fun kv => kv.2.full_path)).Nodup)
    (hmem : (u, e) ∈ db.entities.entries) (hfp : e.full_path = some p) :
    ∃ e1 e2, queryEntity db (.u u) = .ok e1 ∧ queryEntity db (.s p) = .ok e2 ∧
      e1.uuid = e2.uuid := by
  have hlu : dlookup db.entities u = some e := mem_dlookup hkeys hmem
  have hpu : dlookup db.path_to_entity p = some u :=
    buildPathToEntity_lookup _ _ _ u e p hload hmem hfp huniq
  refine ⟨e, e, ?_, ?_, rfl⟩
  · simp only [queryEntity, hlu]
  · simp only [queryEntity, hpu, hlu]

/-- Witness for C9 at the `27M` entity of the planck catalog. -/
theorem claim_C9_entity_path_roundtrip_witness :
    (buildPathToEntity [] planckDb.entities.entries = .ok planckDb.path_to_entity ∧
     NodupKeys planckDb.entities ∧
     (planckDb.entities.entries.map (fun kv => kv.2.full_path)).Nodup ∧
     (u27M, { uuid := u27M, name := ("27M").data,
              full_path := some (("/LFI/frequency_030_ghz/27M").data),
              parent := some uF030, quantities := [uBandpass] : Entity }) ∈
       planckDb.entities.entries) ∧
    (∃ e1 e2, queryEntity planckDb (.u u27M) = .ok e1 ∧
      queryEntity planckDb (.s (("/LFI/frequency_030_ghz/27M").data)) = .ok e2 ∧
      e1.uuid = e2.uuid) :=
  ⟨⟨by decide, by decide, by decide, by decide⟩,
   claim_C9_entity_path_roundtrip planckDb u27M
     { uuid := u27M, name := ("27M").data,
       full_path := some (("/LFI/frequency_030_ghz/27M").data),
       parent := some uF030, quantities := [uBandpass] }
     (("/LFI/frequency_030_ghz/27M").data)
     (by decide) (by decide) (by decide) (by decide) (by decide)⟩

theorem findQuantityByName_ok (qdict : Dict Nat Quantity) (l : List Nat)
    (qname : Str) (qu : Nat) (q : Quantity)
    (htot : ∀ u' ∈ l, (dlookup qdict u').isSome)
    (hqu : qu ∈ l) (hq : dlookup qdict qu = some q) (hqn : q.name = qname)
    (huniq : ∀ u' ∈ l, (dlookup qdict u').map Quantity.name = some qname → u' = qu)
    (hkey : q.uuid = qu) :
    findQuantityByName qdict l qname = .ok (some q) := by
  induction l with
  | nil => simp at hqu
  | cons u0 rest ih =>
    have h0 := htot u0 (List.mem_cons_self _ _)
    obtain ⟨q0, hq0⟩ := Option.isSome_iff_exists.mp h0
    simp only [findQuantityByName, hq0]
    by_cases hn : q0.name = qname
    · have hu0 : u0 = qu := huniq u0 (List.mem_cons_self _ _)
        (by rw [hq0]; exact congrArg some hn)
      have hq' : dlookup qdict u0 = some q := by rw [hu0]; exact hq
      have hq0q : q0 = q := by rw [hq0] at hq'; exact Option.some.inj hq'
      rw [if_pos hn]
      have hkey' : q0.uuid = u0 := by rw [hq0q, hkey, hu0]
      rw [hkey']
      simp only [hq0, hq0q]
    · rw [if_neg hn]
      have hqur : qu ∈ rest := by
        rcases List.mem_cons.mp hqu with heq | h
        · rw [heq] at hq
          rw [hq0] at hq
          have hq0q : q0 = q := Option.some.inj hq
          rw [hq0q] at hn
          exact absurd hqn hn
        · exact h
      exact ih (fun u' hu' => htot u' (List.mem_cons_of_mem _ hu')) hqur
        (fun u' hu' h2 => huniq u' (List.mem_cons_of_mem _ hu') h2)

theorem firstMemIn_spec (l rset : List Nat) (fu : Nat)
    (hfu : fu ∈ l) (hfr : fu ∈ rset) :
    ∃ du, firstMemIn l rset = some du ∧ du ∈ l ∧ du ∈ rset := by
  induction l with
  | nil => simp at hfu
  | cons x rest ih =>
    cases hx : rset.contains x with
    | true =>
      refine ⟨x, ?_, List.mem_cons_self _ _, ?_⟩
      · simp only [firstMemIn, List.find?, hx]
      · have hx' := hx
        simp at hx'
        exact hx'
    | false =>
      rcases List.mem_cons.mp hfu with heq | h
      · subst heq
        simp at hx
        exact absurd hfr hx
      · obtain ⟨du, hdu, hdl, hdr⟩ := ih h
        refine ⟨du, ?_, List.mem_cons_of_mem _ hdl, hdr⟩
        simp only [firstMemIn, List.find?, hx] at hdu ⊢
        exact hdu

/-- Claim C1: a release-scoped path whose release tag, reassembled middle
path and quantity name all resolve in a coherent index yields a data file
of that quantity belonging to that release; the planck scenario path is the
witness. -/
theorem claim_C1_release_path_resolution (db : LocalInsDb) (s : Str)
    (track : Bool) (relname epath qname : Str) (rel : Release) (eu : Nat)
    (ent : Entity) (qu : Nat) (q : Quantity)
    (hpu : pyUUID s = none)
    (hparse : parseDataFilePath (removePfx relSlashPfx s) =
      .ok (relname, epath, qname))
    (hrel : dlookup db.releases relname = some rel)
    (hpe : dlookup db.path_to_entity epath = some eu)
    (hent : dlookup db.entities eu = some ent)
    (htot : ∀ u' ∈ ent.quantities, (dlookup db.quantities u').isSome)
    (hqu : qu ∈ ent.quantities)
    (hq : dlookup db.quantities qu = some q)
    (hqname : q.name = qname)
    (huniq : ∀ u' ∈ ent.quantities,
      (dlookup db.quantities u').map Quantity.name = some qname → u' = qu)
    (hqkey : q.uuid = qu)
    (hex : ∃ fu ∈ q.data_files, fu ∈ rel.data_files)
    (hdco : ∀ u' ∈ q.data_files,
      (dlookup db.data_files u').map DataFile.uuid = some u' ∧
      (dlookup db.data_files u').map DataFile.quantity = some q.uuid) :
    ∃ df, (queryDataFile db (.s s) track).1 = .ok df ∧
      df.quantity = q.uuid ∧ df.uuid ∈ rel.data_files := by
  have hfind : findQuantityByName db.quantities ent.quantities qname =
      .ok (some q) :=
    findQuantityByName_ok db.quantities ent.quantities qname qu q htot hqu hq
      hqname huniq hqkey
  obtain ⟨fu, hfu, hfr⟩ := hex
  obtain ⟨du, hdu, hdl, hdr⟩ := firstMemIn_spec q.data_files rel.data_files
    fu hfu hfr
  have hco := hdco du hdl
  cases hdf : dlookup db.data_files du with
  | none => rw [hdf] at hco; simp at hco
  | some df =>
    rw [hdf] at hco
    simp only [Option.map_some'] at hco
    refine ⟨df, ?_, Option.some.inj hco.2, ?_⟩
    · unfold queryDataFile
      simp only [hpu, hparse, hrel, hpe, hent, hfind, hdu, hdf]
    · rw [Option.some.inj hco.1]
      exact hdr

/-- Witness for C1: the spec §8 path resolves to the bandpass file with
UUID `ed8ef738-…`, a member of release `planck2018`. -/
theorem claim_C1_release_path_resolution_witness :
    (pyUUID planckPath = none ∧
     parseDataFilePath (removePfx relSlashPfx planckPath) =
       .ok (("planck2018").data, ("/LFI/frequency_030_ghz/27M").data,
            ("bandpass").data) ∧
     (queryDataFile planckDb (.s planckPath) true).1 = .ok planckBandpassFile ∧
     planckBandpassFile.uuid = uBandpassFile) ∧
    (∃ df, (queryDataFile planckDb (.s planckPath) true).1 = .ok df ∧
      df.quantity = uBandpass ∧
      df.uuid ∈ [uBandpassFile]) := by
  constructor
  · exact ⟨by decide, by decide, by decide, by decide⟩
  · exact claim_C1_release_path_resolution planckDb planckPath true
      (("planck2018").data) (("/LFI/frequency_030_ghz/27M").data)
      (("bandpass").data)
      { tag := ("planck2018").data, rel_date := ("2018-07-01").data,
        comment := [], data_files := [uBandpassFile] }
      u27M
      { uuid := u27M, name := ("27M").data,
        full_path := some (("/LFI/frequency_030_ghz/27M").data),
        parent := some uF030, quantities := [uBandpass] }
      uBandpass
      { uuid := uBandpass, name := ("bandpass").data, format_spec := none,
        entity := u27M, data_files := [uBandpassFile] }
      (by decide) (by decide) (by decide) (by decide) (by decide) (by decide)
      (by decide) (by decide) (by decide) (by decide) (by decide)
      (by decide) (by decide)

theorem dlookup_dmodify {κ ν : Type} [DecidableEq κ] (d : Dict κ ν) (k : κ)
    (f : ν → ν) (d2 : Dict κ ν) (h : dmodify d k f = some d2) (u : κ) :
    dlookup d2 u = if k = u then (dlookup d u).map f else dlookup d u := by
  induction d generalizing d2 with
  | nil =>
    simp only [dmodify] at h
    cases h
  | cons kv rest ih =>
    obtain ⟨k0, v0⟩ := kv
    by_cases h0 : k0 = k
    · simp only [dmodify, if_pos h0] at h
      obtain rfl : (k0, f v0) :: rest = d2 := Option.some.inj h
      subst h0
      by_cases hu : k0 = u
      · subst hu
        simp [dlookup]
      · simp [dlookup, hu]
    · simp only [dmodify, if_neg h0] at h
      rcases ho : dmodify rest k f with _ | r
      · rw [ho] at h
        simp at h
      · rw [ho] at h
        simp only [Option.map_some'] at h
        obtain rfl : (k0, v0) :: r = d2 := Option.some.inj h
        have hr := ih r ho
        by_cases hu : k0 = u
        · have hku : ¬ k = u := fun hk => h0 (hu.trans hk.symm)
          simp [dlookup, hu, hku]
        · simp only [dlookup, if_neg hu]
          rw [hr]

theorem fillOneRelease_lookup (tag : Str) (l : List Nat) (d d' : Dict Nat DataFile)
    (h : fillOneRelease tag d l = .ok d') (u : Nat) :
    dlookup d' u = if u ∈ l then
      (dlookup d u).map
        (fun df => { df with release_tags := sadd df.release_tags tag })
      else dlookup d u := by
  induction l generalizing d with
  | nil =>
    simp only [fillOneRelease] at h
    cases h
    simp
  | cons u0 rest ih =>
    rcases hm : dmodify d u0
        (fun df => { df with release_tags := sadd df.release_tags tag })
      with _ | d2
    · simp only [fillOneRelease, hm] at h
      cases h
    · simp only [fillOneRelease, hm] at h
      rw [ih d2 h]
      have h2 := dlookup_dmodify d u0 _ d2 hm u
      by_cases hmem : u ∈ rest <;> by_cases heq : u0 = u


      · rw [if_pos hmem, if_pos (List.mem_cons.mpr (Or.inl heq.symm)), h2,
          if_pos heq]
        cases hv : dlookup d u
        · simp
        · simp [sadd_idem]
      · rw [if_pos hmem, if_pos (List.mem_cons.mpr (Or.inr hmem)), h2,
          if_neg heq]
      · rw [if_neg hmem, if_pos (List.mem_cons.mpr (Or.inl heq.symm)), h2,
          if_pos heq]
      · rw [if_neg hmem, h2, if_neg heq,
          if_neg (fun hc => (List.mem_cons.mp hc).elim
            (fun he => heq he.symm) hmem)]

theorem fillReleaseTags_lookup (d : Dict Nat DataFile)
    (rels : List (Str × Release)) (d' : Dict Nat DataFile)
    (h : fillReleaseTags d rels = .ok d') (u : Nat) :
    dlookup d' u = rels.foldl
      (fun acc tr => if u ∈ tr.2.data_files then
        acc.map (fun df => { df with release_tags := sadd df.release_tags tr.1 })
        else acc)
      (dlookup d u) := by
  induction rels generalizing d with
  | nil =>
    simp only [fillReleaseTags] at h
    cases h
    rfl
  | cons tr rest ih =>
    obtain ⟨tag, rel⟩ := tr
    rcases hone : fillOneRelease tag d rel.data_files with e | d2
    · simp only [fillReleaseTags, hone] at h
      cases h
    · simp only [fillReleaseTags, hone] at h
      rw [List.foldl_cons, ih d2 h,
        fillOneRelease_lookup tag rel.data_files d d2 hone u]

theorem foldTags_none (u : Nat) (rels : List (Str × Release)) :
    rels.foldl
      (fun acc tr => if u ∈ tr.2.data_files then
        acc.map (fun df => { df with release_tags := sadd df.release_tags tr.1 })
        else acc)
      (none : Option DataFile) = none := by
  induction rels with
  | nil => rfl
  | cons tr rest ih =>
    rw [List.foldl_cons]
    by_cases hm : u ∈ tr.2.data_files
    · simp only [if_pos hm, Option.map_none']
      exact ih
    · simp only [if_neg hm]
      exact ih

theorem foldTags_some (u : Nat) (rels : List (Str × Release)) (df : DataFile) :
    rels.foldl
      (fun acc tr => if u ∈ tr.2.data_files then
        acc.map (fun df => { df with release_tags := sadd df.release_tags tr.1 })
        else acc)
      (some df) =
    some (rels.foldl
      (fun a tr => if u ∈ tr.2.data_files then
        { a with release_tags := sadd a.release_tags tr.1 } else a)
      df) := by
  induction rels generalizing df with
  | nil => rfl
  | cons tr rest ih =>
    rw [List.foldl_cons, List.foldl_cons]
    by_cases hm : u ∈ tr.2.data_files
    · simp only [if_pos hm, Option.map_some']
      exact ih _
    · simp only [if_neg hm]
      exact ih _

theorem foldTags_mem (u : Nat) (rels : List (Str × Release)) (df : DataFile) :
    (rels.foldl
      (fun a tr => if u ∈ tr.2.data_files then
        { a with release_tags := sadd a.release_tags tr.1 } else a)
      df).uuid = df.uuid ∧
    ∀ t, t ∈ (rels.foldl
      (fun a tr => if u ∈ tr.2.data_files then
        { a with release_tags := sadd a.release_tags tr.1 } else a)
      df).release_tags ↔
      t ∈ df.release_tags ∨ ∃ rel, (t, rel) ∈ rels ∧ u ∈ rel.data_files := by
  induction rels generalizing df with
  | nil =>
    exact ⟨rfl, fun t => by simp⟩
  | cons tr rest ih =>
    rw [List.foldl_cons]
    by_cases hm : u ∈ tr.2.data_files
    · simp only [if_pos hm]
      obtain ⟨hu, hmem⟩ := ih { df with release_tags := sadd df.release_tags tr.1 }
      refine ⟨hu, fun t => ?_⟩
      rw [hmem t]
      constructor
      · rintro (hsadd | ⟨rel, hrel, hurel⟩)
        · rcases (mem_sadd _ _ _).mp hsadd with hin | rfl
          · exact Or.inl hin
          · have hhead : (tr.1, tr.2) ∈ tr :: rest := by
              rw [Prod.mk.eta]
              exact List.mem_cons_self _ _
            exact Or.inr ⟨tr.2, hhead, hm⟩
        · exact Or.inr ⟨rel, List.mem_cons_of_mem _ hrel, hurel⟩
      · rintro (hin | ⟨rel, hrel, hurel⟩)
        · exact Or.inl ((mem_sadd _ _ _).mpr (Or.inl hin))
        · rcases List.mem_cons.mp hrel with hpeq | hr
          · have ht1 : t = tr.1 := congrArg Prod.fst hpeq
            exact Or.inl ((mem_sadd _ _ _).mpr (Or.inr ht1))
          · exact Or.inr ⟨rel, hr, hurel⟩
    · simp only [if_neg hm]
      obtain ⟨hu, hmem⟩ := ih df
      refine ⟨hu, fun t => ?_⟩
      rw [hmem t]
      constructor
      · rintro (hin | ⟨rel, hrel, hurel⟩)
        · exact Or.inl hin
        · exact Or.inr ⟨rel, List.mem_cons_of_mem _ hrel, hurel⟩
      · rintro (hin | ⟨rel, hrel, hurel⟩)
        · exact Or.inl hin
        · rcases List.mem_cons.mp hrel with hpeq | hr
          · have hrel2 : rel = tr.2 := congrArg Prod.snd hpeq
            exact absurd (hrel2 ▸ hurel) hm
          · exact Or.inr ⟨rel, hr, hurel⟩

theorem mem_dset {κ ν : Type} [DecidableEq κ] (d : Dict κ ν) (k : κ) (v : ν)
    (kv : κ × ν) (h : kv ∈ dset d k v) : kv ∈ d ∨ kv = (k, v) := by
  induction d with
  | nil =>
    simp only [dset] at h
    rcases List.mem_singleton.mp h with rfl
    exact Or.inr rfl
  | cons kv0 rest ih =>
    obtain ⟨k0, v0⟩ := kv0
    by_cases h0 : k0 = k
    · simp only [dset, if_pos h0] at h
      rcases List.mem_cons.mp h with rfl | hr
      · exact Or.inr (by rw [h0])
      · exact Or.inl (List.mem_cons_of_mem _ hr)
    · simp only [dset, if_neg h0] at h
      rcases List.mem_cons.mp h with rfl | hr
      · exact Or.inl (List.mem_cons_self _ _)
      · rcases ih hr with hin | rfl
        · exact Or.inl (List.mem_cons_of_mem _ hin)
        · exact Or.inr rfl

theorem mem_keys_dset {κ ν : Type} [DecidableEq κ] (d : Dict κ ν) (k : κ) (v : ν)
    (a : κ) (h : a ∈ (dset d k v).map Prod.fst) :
    a ∈ d.map Prod.fst ∨ a = k := by
  rcases List.mem_map.mp h with ⟨kv, hkv, hfst⟩
  rcases mem_dset d k v kv hkv with hin | rfl
  · exact Or.inl (List.mem_map.mpr ⟨kv, hin, hfst⟩)
  · exact Or.inr hfst.symm

theorem NodupKeys_dset {κ ν : Type} [DecidableEq κ] (d : Dict κ ν) (k : κ) (v : ν)
    (h : NodupKeys d) : NodupKeys (dset d k v) := by
  induction d with
  | nil => simp [dset, NodupKeys]
  | cons kv0 rest ih =>
    obtain ⟨k0, v0⟩ := kv0
    simp only [NodupKeys, List.map_cons, List.nodup_cons] at h
    by_cases h0 : k0 = k
    · simp only [NodupKeys, dset, if_pos h0, List.map_cons, List.nodup_cons]
      exact h
    · simp only [NodupKeys, dset, if_neg h0, List.map_cons, List.nodup_cons]
      refine ⟨?_, ih h.2⟩
      intro hc
      rcases mem_keys_dset rest k v k0 hc with hin | heq
      · exact h.1 hin
      · exact h0 heq

theorem buildReleases_nodup (d : Dict Str Release) (raws : List RawRelease)
    (rels : Dict Str Release) (h : buildReleases d raws = .ok rels)
    (hd : NodupKeys d) : NodupKeys rels := by
  induction raws generalizing d with
  | nil =>
    simp only [buildReleases] at h
    cases h
    exact hd
  | cons o rest ih =>
    rcases hp : parseRelease o with e | r
    · simp only [buildReleases, hp] at h
      cases h
    · simp only [buildReleases, hp] at h
      exact ih _ h (NodupKeys_dset d r.tag r hd)

theorem parseDataFile_rt (sp : Str) (o : RawDataFile) (df : DataFile)
    (h : parseDataFile sp o = .ok df) : df.release_tags = [] := by
  unfold parseDataFile at h
  rcases hdeps : pyUUIDSet (o.dependencies.getD []) with e | deps
  · simp only [hdeps] at h
    cases h
  · simp only [hdeps] at h
    rcases hu : pyUUID o.uuid with _ | u <;>
      rcases hq : pyUUID o.quantity with _ | q <;>
      simp only [hu, hq] at h
    · cases h
    · cases h
    · cases h
    · obtain rfl := Except.ok.inj h
      rfl

theorem buildDataFiles_inv (sp : Str) (raws : List RawDataFile)
    (d dfs : Dict Nat DataFile) (h : buildDataFiles sp d raws = .ok dfs)
    (hd : ∀ kv ∈ d, kv.1 = (kv.2 : DataFile).uuid ∧ kv.2.release_tags = []) :
    ∀ kv ∈ dfs, kv.1 = (kv.2 : DataFile).uuid ∧ kv.2.release_tags = [] := by
  induction raws generalizing d with
  | nil =>
    simp only [buildDataFiles] at h
    cases h
    exact hd
  | cons o rest ih =>
    rcases hp : parseDataFile sp o with e | df
    · simp only [buildDataFiles, hp] at h
      cases h
    · simp only [buildDataFiles, hp] at h
      refine ih _ h ?_
      intro kv hkv
      rcases mem_dset d df.uuid df kv hkv with hin | rfl
      · exact hd kv hin
      · exact ⟨rfl, parseDataFile_rt sp o df hp⟩

/-- Claim C5: after `parse_schema` succeeds, each indexed data file carries
exactly the release tags whose release member set contains its UUID. -/
theorem claim_C5_release_tags_invariant (db db2 : LocalInsDb) (schema : SchemaDoc)
    (h : parseSchema db schema = .ok db2) :
    ∀ fu df, dlookup db2.data_files fu = some df →
      df.uuid = fu ∧
      (∀ tag, tag ∈ df.release_tags ↔
        ∃ rel, dlookup db2.releases tag = some rel ∧
          df.uuid ∈ rel.data_files) := by
  unfold parseSchema at h
  simp only [bind, Except.bind] at h
  rcases h1 : buildFormatSpecs [] schema.format_specifications with e | fs
  · simp only [h1] at h
    cases h
  simp only [h1] at h
  rcases h2 : walkEntityTree [] schema.entities [] none with e | ents
  · simp only [h2] at h
    cases h
  simp only [h2] at h
  rcases h3 : buildQuantities [] schema.quantities with e | qs
  · simp only [h3] at h
    cases h
  simp only [h3] at h
  rcases h4 : buildDataFiles db.storage_path [] schema.data_files with e | dfs
  · simp only [h4] at h
    cases h
  simp only [h4] at h
  rcases h5 : buildReleases [] schema.releases with e | rels
  · simp only [h5] at h
    cases h
  simp only [h5] at h
  rcases h6 : buildPathToEntity [] ents.entries with e | p2e
  · simp only [h6] at h
    cases h
  simp only [h6] at h
  rcases h7 : buildPathToQuantity qs ents [] qs.entries with e | p2q
  · simp only [h7] at h
    cases h
  simp only [h7] at h
  rcases h8 : backfillEntityQuantities ents qs.entries with e | ents2
  · simp only [h8] at h
    cases h
  simp only [h8] at h
  rcases h9 : backfillQuantityDataFiles qs dfs.entries with e | qs2
  · simp only [h9] at h
    cases h
  simp only [h9] at h
  rcases h10 : fillReleaseTags dfs rels.entries with e | dfs2
  · simp only [h10] at h
    cases h
  simp only [h10] at h
  have hinj := Except.ok.inj h
  have e1 : db2.data_files = dfs2 := by rw [← hinj]
  have e2 : db2.releases = rels := by rw [← hinj]
  have hnodup : NodupKeys rels :=
    buildReleases_nodup [] schema.releases rels h5 (by simp [NodupKeys])
  intro fu df hdf
  rw [e1] at hdf
  have hflt := fillReleaseTags_lookup dfs rels.entries dfs2 h10 fu
  cases hpre : dlookup dfs fu with
  | none =>
    rw [hpre, foldTags_none] at hflt
    rw [hdf] at hflt
    cases hflt
  | some dfPre =>
    rw [hpre, foldTags_some] at hflt
    rw [hdf] at hflt
    have hdfeq := Option.some.inj hflt
    obtain ⟨hfu, hrt⟩ := buildDataFiles_inv db.storage_path schema.data_files
      [] dfs h4 (by intro kv hkv; simp at hkv) (fu, dfPre) (dlookup_mem hpre)
    obtain ⟨huu, hmem⟩ := foldTags_mem fu rels.entries dfPre
    constructor
    · rw [hdfeq, huu]
      exact hfu.symm
    · intro tag
      rw [hdfeq, e2]
      constructor
      · intro ht
        rcases (hmem tag).mp ht with hin | ⟨rel, hrel, hurel⟩
        · rw [hrt] at hin
          cases hin
        · refine ⟨rel, mem_dlookup hnodup hrel, ?_⟩
          rw [huu, ← hfu]
          exact hurel
      · rintro ⟨rel, hlrel, hurel⟩
        apply (hmem tag).mpr
        refine Or.inr ⟨rel, dlookup_mem hlrel, ?_⟩
        rw [huu, ← hfu] at hurel
        exact hurel

/-- Witness for C5: the concrete one-file, one-release schema document. -/
theorem claim_C5_release_tags_invariant_witness :
    (parseSchema (freshLocalInsDb (("/db").data)) witnessDoc =
      .ok witnessParsedDb) ∧
    (∀ fu df, dlookup witnessParsedDb.data_files fu = some df →
      df.uuid = fu ∧
      (∀ tag, tag ∈ df.release_tags ↔
        ∃ rel, dlookup witnessParsedDb.releases tag = some rel ∧
          df.uuid ∈ rel.data_files)) :=
  ⟨by decide,
   claim_C5_release_tags_invariant (freshLocalInsDb (("/db").data))
     witnessParsedDb witnessDoc (by decide)⟩

theorem lastFoundSchema_eq (files : Storage) :
    lastFoundSchema files = firstPresent files schemaFileNames.reverse := by
  cases h1 : dlookup files (("schema.json").data) <;>
  cases h2 : dlookup files (("schema.json.gz").data) <;>
  cases h3 : dlookup files (("schema.yaml").data) <;>
  cases h4 : dlookup files (("schema.yaml.gz").data) <;>
    simp [lastFoundSchema, firstPresent, schemaFileNames, List.foldl_cons,
      List.foldl_nil, List.reverse_cons, List.reverse_nil, h1, h2, h3, h4]

theorem firstPresent_some_exists (files : Storage) (l : List Str) (d : SchemaDoc)
    (h : firstPresent files l = some d) : ∃ n ∈ l, (dlookup files n).isSome := by
  induction l with
  | nil => cases h
  | cons n rest ih =>
    cases hn : dlookup files n with
    | some d0 =>
      exact ⟨n, List.mem_cons_self _ _, by rw [hn]; rfl⟩
    | none =>
      simp only [firstPresent, hn] at h
      obtain ⟨n', hn', hs⟩ := ih h
      exact ⟨n', List.mem_cons_of_mem _ hn', hs⟩

/-- Claim C6 (amended): the loop in `read_schema` has no `break`, so the
index is built from the LAST schema file found in the preference order
(equivalently the first present name in the reversed order); when none of
the four names exists, construction fails with the schema-not-found format
error. -/
theorem claim_C6_schema_discovery (sp : Str) (files : Storage) :
    (∀ doc, lastFoundSchema files = some doc → doc.nonempty = true →
       initLocalInsDb sp files = parseSchema (freshLocalInsDb sp) doc) ∧
    (lastFoundSchema files = firstPresent files schemaFileNames.reverse) ∧
    ((∀ n ∈ schemaFileNames, dlookup files n = none) →
       initLocalInsDb sp files =
         .error (.formatError (schemaNotFoundMsg sp))) := by
  refine ⟨?_, lastFoundSchema_eq files, ?_⟩
  · intro doc hdoc hne
    have hfp : firstPresent files schemaFileNames.reverse = some doc := by
      rw [← lastFoundSchema_eq]
      exact hdoc
    obtain ⟨n, hnmem, hns⟩ := firstPresent_some_exists files _ doc hfp
    have hnmem2 : n ∈ schemaFileNames := List.mem_reverse.mp hnmem
    have hany : schemaFileNames.any (fun n => (dlookup files n).isSome) = true :=
      List.any_eq_true.mpr ⟨n, hnmem2, hns⟩
    simp [initLocalInsDb, checkConsistency, hany, readSchema, hdoc, hne,
      freshLocalInsDb]
  · intro hnone
    have hany : schemaFileNames.any (fun n => (dlookup files n).isSome) = false := by
      rw [List.any_eq_false]
      intro n hn
      rw [hnone n hn]
      simp
    simp [initLocalInsDb, checkConsistency, hany]

/-- Counterexample for C6 as stated: `schema.json` (first in the preference
order) holds one document, but the index is built from the later
`schema.yaml`. -/
theorem claim_C6_schema_discovery_counterexample :
    dlookup twoSchemaStorage (("schema.json").data) = some witnessDoc ∧
    initLocalInsDb (("/db").data) twoSchemaStorage =
      parseSchema (freshLocalInsDb (("/db").data)) witnessDocB ∧
    initLocalInsDb (("/db").data) twoSchemaStorage ≠
      parseSchema (freshLocalInsDb (("/db").data)) witnessDoc :=
  ⟨rfl, by decide, by decide⟩

/-- Witness for C6 at the two-schema storage directory. -/
theorem claim_C6_schema_discovery_witness :
    (lastFoundSchema twoSchemaStorage = some witnessDocB ∧
     witnessDocB.nonempty = true) ∧
    initLocalInsDb (("/db").data) twoSchemaStorage =
      parseSchema (freshLocalInsDb (("/db").data)) witnessDocB :=
  ⟨⟨rfl, rfl⟩,
   (claim_C6_schema_discovery (("/db").data) twoSchemaStorage).1 witnessDocB
     rfl rfl⟩
